import Mathlib

/-
Formal model of the RIVALS multiplayer game server.

The source consists of two near-duplicate Python snapshots:
* the room-based server (snapshot "rivals_server (25)"): WebSocket frame
  codec (ws_send / ws_recv), global tables players / rooms / pid_room /
  clients guarded by one lock, the per-message handlers of handle_client,
  end_round / _reset_room, remove_client, _timer_end and _gen_code;
* the single-lobby variant (rivals_server.py): one global lobby with a
  host_id and host promotion in the disconnect path of Handler._ws_upgrade.

This file is a shallow embedding of those parts.  Python dicts are modelled
as association lists (first binding wins, matching dict semantics when keys
are unique; updates rewrite every matching binding, which coincides with
dict update on unique keys).  Python unbounded ints are modelled as Int
(byte and length arithmetic as Nat); the few float-valued fields
(angle, sword_cd, respTimer, round_timer) only ever hold values that are
assigned whole-number literals or compared, so they are modelled as Int.
Socket reads are modelled by an explicit chunk schedule so that partial
reads can be expressed.  Network sends are modelled as emitted events.
-/

namespace Rivals

/-! ## Association lists (Python dict model) -/

/-- Dict read: `d.get(k)` — first binding for the key, if any. -/
def lookupA {α : Type} {β : Type} [DecidableEq α] (k : α) : List (α × β) → Option β
  | [] => none
  | (a, b) :: t => if a = k then some b else lookupA k t

/-- Dict in-place update of an existing key: applies `f` to every binding of
`k` (on the unique-key lists used here this is exactly mutating `d[k]`). -/
def updA {α : Type} {β : Type} [DecidableEq α] (k : α) (f : β → β) : List (α × β) → List (α × β)
  | [] => []
  | (a, b) :: t => if a = k then (a, f b) :: updA k f t else (a, b) :: updA k f t

/-- Dict deletion: `d.pop(k, None)` — removes every binding of `k`. -/
def eraseA {α : Type} {β : Type} [DecidableEq α] (k : α) : List (α × β) → List (α × β)
  | [] => []
  | (a, b) :: t => if a = k then eraseA k t else (a, b) :: eraseA k t

theorem lookupA_nil {α β : Type} [DecidableEq α] (k : α) :
    lookupA (β := β) k [] = none := rfl

theorem lookupA_cons {α β : Type} [DecidableEq α] (k a : α) (b : β) (t : List (α × β)) :
    lookupA k ((a, b) :: t) = if a = k then some b else lookupA k t := rfl

theorem lookupA_updA_self {α β : Type} [DecidableEq α] (k : α) (f : β → β)
    (l : List (α × β)) : lookupA k (updA k f l) = (lookupA k l).map f := by
  induction l with
  | nil => rfl
  | cons h t ih =>
    obtain ⟨a, b⟩ := h
    by_cases hak : a = k <;> simp [updA, lookupA, hak, ih]

theorem lookupA_updA_ne {α β : Type} [DecidableEq α] {k k' : α} (h : k ≠ k') (f : β → β)
    (l : List (α × β)) : lookupA k (updA k' f l) = lookupA k l := by
  induction l with
  | nil => rfl
  | cons hd t ih =>
    obtain ⟨a, b⟩ := hd
    by_cases hak : a = k'
    · subst hak
      have hne : a ≠ k := fun hh => h (hh ▸ rfl)
      simp [updA, lookupA, hne, ih]
    · by_cases hk2 : a = k
      · subst hk2
        simp [updA, lookupA, hak, ih]
      · simp [updA, lookupA, hak, hk2, ih]

theorem lookupA_eraseA_self {α β : Type} [DecidableEq α] (k : α) (l : List (α × β)) :
    lookupA k (eraseA k l) = none := by
  induction l with
  | nil => rfl
  | cons hd t ih =>
    obtain ⟨a, b⟩ := hd
    by_cases hak : a = k <;> simp [eraseA, lookupA, hak, ih]

theorem lookupA_eraseA_ne {α β : Type} [DecidableEq α] {k k' : α} (h : k ≠ k')
    (l : List (α × β)) : lookupA k (eraseA k' l) = lookupA k l := by
  induction l with
  | nil => rfl
  | cons hd t ih =>
    obtain ⟨a, b⟩ := hd
    by_cases hak : a = k'
    · subst hak
      have hne : a ≠ k := fun hh => h (hh ▸ rfl)
      simp [eraseA, lookupA, hne, ih]
    · by_cases hk2 : a = k
      · subst hk2
        simp [eraseA, lookupA, hak, ih]
      · simp [eraseA, lookupA, hak, hk2, ih]

/-! ## WebSocket frame codec (ws_send / ws_recv of the room server)

Bytes are `Nat` (values below 256 where produced by the encoder).  A socket
is a byte list plus a chunk schedule: each `recv(n)` call pops one schedule
entry `c` and returns up to `min n (c+1)` bytes (so a pending entry never
forces an empty read while data remains, which matches a blocking socket);
an exhausted schedule means full reads.  `recv` on an empty stream returns
the empty chunk, which is Python's end-of-stream signal. -/

/-- Big-endian encoding of `n` on `k` bytes: `struct.pack` with `>H` (k = 2)
or `>Q` (k = 8). -/
def encodeBE : Nat → Nat → List Nat
  | 0, _ => []
  | k + 1, n => encodeBE k (n / 256) ++ [n % 256]

/-- Big-endian decoding: `struct.unpack` of `>H` / `>Q`. -/
def decodeBE (l : List Nat) : Nat := l.foldl (fun acc b => acc * 256 + b) 0

theorem encodeBE_length (k n : Nat) : (encodeBE k n).length = k := by
  induction k generalizing n with
  | zero => rfl
  | succ k ih => simp [encodeBE, ih]

theorem decodeBE_encodeBE (k : Nat) : ∀ n : Nat, n < 256 ^ k →
    decodeBE (encodeBE k n) = n := by
  induction k with
  | zero =>
    intro n hn
    interval_cases n
    rfl
  | succ k ih =>
    intro n hn
    have hdiv : n / 256 < 256 ^ k := by
      rw [Nat.div_lt_iff_lt_mul (by norm_num)]
      calc n < 256 ^ (k + 1) := hn
        _ = 256 ^ k * 256 := by ring
    have : decodeBE (encodeBE k (n / 256) ++ [n % 256])
        = decodeBE (encodeBE k (n / 256)) * 256 + n % 256 := by
      simp [decodeBE, List.foldl_append]
    rw [encodeBE, this, ih _ hdiv]
    omega

/-- One `conn.recv(n)` call under a chunk schedule: returns the chunk read,
the remaining schedule and the remaining stream. -/
def recvChunk (n : Nat) (sched : List Nat) (s : List Nat) :
    List Nat × List Nat × List Nat :=
  match sched with
  | [] => (s.take n, [], s.drop n)
  | c :: cs => (s.take (min n (c + 1)), cs, s.drop (min n (c + 1)))

/-- The retry loops of ws_recv (`while len(hdr) < 2` and
`while len(data) < plen`): keep calling `recv` for the missing bytes until
`k` bytes are accumulated, or return `none` when a read comes back empty
(end of stream). -/
def readExact (k : Nat) (sched : List Nat) (s : List Nat) :
    Option (List Nat × List Nat × List Nat) :=
  if hk : k = 0 then some ([], sched, s)
  else
    match recvChunk k sched s with
    | (chunk, sched1, s1) =>
      if hc : chunk = [] then none
      else
        match readExact (k - chunk.length) sched1 s1 with
        | none => none
        | some (bs, sched2, s2) => some (chunk ++ bs, sched2, s2)
termination_by k
decreasing_by
  have : 0 < chunk.length := List.length_pos.mpr hc
  omega

/-- A `recvChunk` result is a take/drop split at some positive position
(positive as long as bytes were requested). -/
theorem recvChunk_spec (n : Nat) (sched : List Nat) (s : List Nat) (hn : 0 < n) :
    ∃ m sc1, 0 < m ∧ m ≤ n ∧ recvChunk n sched s = (s.take m, sc1, s.drop m) := by
  match sched with
  | [] => exact ⟨n, [], hn, le_refl n, rfl⟩
  | c :: cs => exact ⟨min n (c + 1), cs, by omega, by omega, rfl⟩

/-- The retry loop returns exactly the first `k` bytes of the stream whenever
at least `k` bytes remain, and signals end of stream otherwise — for any
chunk schedule. -/
theorem readExact_spec (k : Nat) : ∀ (sched s : List Nat),
    (k ≤ s.length → ∃ sc, readExact k sched s = some (s.take k, sc, s.drop k)) ∧
    (s.length < k → readExact k sched s = none) := by
  induction k using Nat.strong_induction_on with
  | _ k ih =>
    intro sched s
    by_cases hk : k = 0
    · subst hk
      refine ⟨fun _ => ⟨sched, by simp [readExact]⟩, fun h => absurd h (by omega)⟩
    · have hkpos : 0 < k := Nat.pos_of_ne_zero hk
      obtain ⟨m, sc1, hm0, hmk, hrc⟩ := recvChunk_spec k sched s hkpos
      by_cases hs : s = []
      · subst hs
        constructor
        · intro hle
          simp at hle
          omega
        · intro _
          rw [readExact.eq_def]
          simp only [dif_neg hk, hrc]
          simp
      · have hslen : 0 < s.length := List.length_pos.mpr hs
        have hchunk_len : (s.take m).length = min m s.length := List.length_take m s
        have hchunk_ne : s.take m ≠ [] := by
          intro hemp
          rw [hemp] at hchunk_len
          simp at hchunk_len
          omega
        constructor
        · intro hle
          -- here m ≤ k ≤ s.length, so the chunk has exactly m bytes
          have hmlen : m ≤ s.length := le_trans hmk hle
          have hcl : (s.take m).length = m := by omega
          obtain ⟨sc, hsc⟩ := (ih (k - m) (by omega) sc1 (s.drop m)).1
            (by rw [List.length_drop]; omega)
          refine ⟨sc, ?_⟩
          rw [readExact.eq_def]
          simp only [dif_neg hk, hrc]
          simp only [dif_neg hchunk_ne, hcl, hsc]
          have htd : s.take m ++ (s.drop m).take (k - m) = s.take k := by
            rw [← List.take_add]
            congr 1
            omega
          have hdd : (s.drop m).drop (k - m) = s.drop k := by
            rw [List.drop_drop]
            congr 1
            omega
          rw [htd, hdd]
        · intro hlt
          have hrec := (ih (k - (s.take m).length) (by omega) sc1 (s.drop m)).2
            (by rw [List.length_drop]; omega)
          rw [readExact.eq_def]
          simp only [dif_neg hk, hrc]
          simp only [dif_neg hchunk_ne, hrec]

/-- `ws_send`: build a text frame (`0x81`, FIN + text opcode, never masked),
choosing the length tier by payload size.  `none` models the
`struct.pack` OverflowError (caught, `ws_send` returns failure) when the
payload does not fit the 64-bit length field.  The UTF-8 encoding of the
text is outside the model: payloads are byte lists. -/
def ws_send (payload : List Nat) : Option (List Nat) :=
  let n := payload.length
  if n < 126 then some (0x81 :: n :: payload)
  else if n < 65536 then some (0x81 :: 126 :: (encodeBE 2 n ++ payload))
  else if n < 2 ^ 64 then some (0x81 :: 127 :: (encodeBE 8 n ++ payload))
  else none

/-- Result of reading one frame: `closed` is Python's `None` (close opcode,
end of stream, or any exception caught by the `except` clause), `ignored`
is the empty-string result for ping/pong/binary opcodes, `text` carries the
payload bytes of a text frame (UTF-8 decoding outside the model). -/
inductive RecvResult : Type
  | closed : RecvResult
  | ignored : RecvResult
  | text : List Nat → RecvResult
deriving DecidableEq

/-- `ws_recv`: read one WebSocket frame from the stream `s` under chunk
schedule `sched`.  The 2-byte header and the payload are read by retry
loops (`readExact`); the 16-bit / 64-bit extended length and the 4-byte
masking key are each a single `conn.recv` call whose result is used as-is,
exactly as in the source: a short read of an extended length makes
`struct.unpack` raise (caught → `closed`), and a short read of the mask
raises IndexError during unmasking only when the payload is long enough to
index past it.  Bitwise tests on header bytes are expressed
arithmetically: `h0 & 0x0F = h0 % 16`, `h1 & 0x80 ≠ 0 ↔ h1 / 128 % 2 = 1`,
`h1 & 0x7F = h1 % 128` (`fin` is computed by the source but unused). -/
def ws_recv (sched : List Nat) (s : List Nat) : RecvResult :=
  match readExact 2 sched s with
  | none => .closed
  | some ([h0, h1], sched1, s1) =>
    let opcode := h0 % 16
    let masked := h1 / 128 % 2 = 1
    let plen0 := h1 % 128
    let step2 : Option (Nat × List Nat × List Nat) :=
      if plen0 = 126 then
        match recvChunk 2 sched1 s1 with
        | (chunk, sched2, s2) =>
          if chunk.length = 2 then some (decodeBE chunk, sched2, s2) else none
      else if plen0 = 127 then
        match recvChunk 8 sched1 s1 with
        | (chunk, sched2, s2) =>
          if chunk.length = 8 then some (decodeBE chunk, sched2, s2) else none
      else some (plen0, sched1, s1)
    match step2 with
    | none => .closed
    | some (plen, sched2, s2) =>
      let maskStep : List Nat × List Nat × List Nat :=
        if masked then recvChunk 4 sched2 s2 else ([0, 0, 0, 0], sched2, s2)
      match maskStep with
      | (mask, sched3, s3) =>
        match readExact plen sched3 s3 with
        | none => .closed
        | some (data, _, _) =>
          -- `mask[i % 4]` raises IndexError iff some index escapes a short mask
          if masked ∧ ¬ (4 ≤ mask.length ∨ data.length ≤ mask.length) then .closed
          else
            let data1 := if masked then
              (data.enum.map fun ib => Nat.xor ib.2 (mask.getD (ib.1 % 4) 0))
            else data
            if opcode = 8 then .closed
            else if opcode = 1 then .text data1
            else .ignored
  | some (_, _, _) => .closed  -- unreachable: readExact 2 yields 2 bytes

theorem readExact_zero (sched s : List Nat) : readExact 0 sched s = some ([], sched, s) := by
  rw [readExact.eq_def]
  simp

/-- Under an exhausted schedule (full reads) the retry loop needs a single
`recv` and keeps the schedule empty. -/
theorem readExact_nil (k : Nat) (s : List Nat) (h : k ≤ s.length) :
    readExact k [] s = some (s.take k, [], s.drop k) := by
  by_cases hk : k = 0
  · subst hk
    simpa using readExact_zero [] s
  · have hcl : (s.take k).length = k := by
      rw [List.length_take]
      omega
    have hne : s.take k ≠ [] := by
      intro he
      rw [he] at hcl
      simp at hcl
      omega
    rw [readExact.eq_def]
    simp only [dif_neg hk, recvChunk]
    simp only [dif_neg hne, hcl, Nat.sub_self, readExact_zero, List.append_nil]

/-- Round trip of the frame codec under full reads: decoding an encoded
frame recovers the payload, and the encoder picks the inline length below
126 bytes, the 16-bit extension below 65536, and the 64-bit extension
otherwise. -/
theorem ws_send_roundtrip (payload : List Nat) (hlen : payload.length < 2 ^ 64) :
    ∃ frame, ws_send payload = some frame ∧ ws_recv [] frame = .text payload ∧
      (payload.length < 126 → frame = 0x81 :: payload.length :: payload) ∧
      (126 ≤ payload.length → payload.length < 65536 →
        frame = 0x81 :: 126 :: (encodeBE 2 payload.length ++ payload)) ∧
      (65536 ≤ payload.length →
        frame = 0x81 :: 127 :: (encodeBE 8 payload.length ++ payload)) := by
  set n := payload.length with hn
  have hpow : (256 : Nat) ^ 8 = 2 ^ 64 := by norm_num
  have hpay : readExact n [] payload = some (payload, [], []) := by
    have h0 := readExact_nil payload.length payload le_rfl
    rw [List.take_length, List.drop_length] at h0
    rw [hn]
    exact h0
  by_cases h1 : n < 126
  · refine ⟨0x81 :: n :: payload, by simp [ws_send, ← hn, h1], ?_, fun _ => rfl,
      fun hc _ => absurd hc (by omega), fun hc => absurd hc (by omega)⟩
    have hre : readExact 2 [] (0x81 :: n :: payload)
        = some ([0x81, n], [], payload) := by
      simpa using readExact_nil 2 (0x81 :: n :: payload) (by simp)
    have hmask : n / 128 % 2 = 0 := by omega
    have hmod : n % 128 = n := Nat.mod_eq_of_lt (by omega)
    simp only [ws_recv, hre]
    simp only [hmask, hmod]
    norm_num
    simp only [if_neg (by omega : ¬ n = 126), if_neg (by omega : ¬ n = 127)]
    simp only [hpay]
  · by_cases h2 : n < 65536
    · refine ⟨0x81 :: 126 :: (encodeBE 2 n ++ payload),
        by simp [ws_send, ← hn, h1, h2], ?_, fun hc => absurd hc (by omega),
        fun _ _ => rfl, fun hc => absurd hc (by omega)⟩
      have hre : readExact 2 [] (0x81 :: 126 :: (encodeBE 2 n ++ payload))
          = some ([0x81, 126], [], encodeBE 2 n ++ payload) := by
        simpa using readExact_nil 2 (0x81 :: 126 :: (encodeBE 2 n ++ payload)) (by simp)
      have htake : (encodeBE 2 n ++ payload).take 2 = encodeBE 2 n := by
        have h3 := List.take_left (encodeBE 2 n) payload
        rwa [encodeBE_length] at h3
      have hdrop : (encodeBE 2 n ++ payload).drop 2 = payload := by
        have h3 := List.drop_left (encodeBE 2 n) payload
        rwa [encodeBE_length] at h3
      have hrc2 : recvChunk 2 [] (encodeBE 2 n ++ payload)
          = (encodeBE 2 n, [], payload) := by
        simp [recvChunk, htake, hdrop]
      simp only [ws_recv, hre]
      norm_num
      simp only [hrc2, encodeBE_length, if_pos rfl]
      simp only [decodeBE_encodeBE 2 n (by norm_num; omega), hpay]
      simp [hpay]
    · refine ⟨0x81 :: 127 :: (encodeBE 8 n ++ payload),
        ?_, ?_, fun hc => absurd hc (by omega),
        fun _ hc => absurd hc (by omega), fun _ => rfl⟩
      · simp only [ws_send, ← hn]
        rw [if_neg h1, if_neg h2, if_pos hlen]
      have hre : readExact 2 [] (0x81 :: 127 :: (encodeBE 8 n ++ payload))
          = some ([0x81, 127], [], encodeBE 8 n ++ payload) := by
        simpa using readExact_nil 2 (0x81 :: 127 :: (encodeBE 8 n ++ payload)) (by simp)
      have htake : (encodeBE 8 n ++ payload).take 8 = encodeBE 8 n := by
        have h3 := List.take_left (encodeBE 8 n) payload
        rwa [encodeBE_length] at h3
      have hdrop : (encodeBE 8 n ++ payload).drop 8 = payload := by
        have h3 := List.drop_left (encodeBE 8 n) payload
        rwa [encodeBE_length] at h3
      have hrc8 : recvChunk 8 [] (encodeBE 8 n ++ payload)
          = (encodeBE 8 n, [], payload) := by
        simp [recvChunk, htake, hdrop]
      simp only [ws_recv, hre]
      norm_num
      simp only [hrc8, encodeBE_length, if_pos rfl]
      simp only [decodeBE_encodeBE 8 n (lt_of_lt_of_eq hlen hpow.symm), hpay]
      simp [hpay]

/-! ## Game state (room server snapshot)

`players`, `rooms`, `pid_room` and `clients` are the module-level dicts;
all handler bodies below execute under the single global lock, so they are
modelled as pure state transformers emitting the broadcasts / replies they
perform as `Event`s. -/

inductive RoomState : Type
  | lobby : RoomState
  | ingame : RoomState
  | ended : RoomState
deriving DecidableEq

structure Player where
  pid : Nat
  name : String
  team : String
  skin : String
  x : Int
  y : Int
  angle : Int
  hp : Int
  maxHp : Int
  dead : Bool
  respTimer : Int
  kills : Int
  deaths : Int
  score : Int
  coins : Int
  owned_skins : List String
  active_skins : List (String × String)
  gun : String
  ammo : Int
  reloading : Bool
  vx : Int
  vy : Int
  shield : Int
  sword_cd : Int
deriving DecidableEq

structure Room where
  code : String
  host_pid : Nat
  state : RoomState
  players : List Nat
  kill_goal : Int
  round_timer : Int
deriving DecidableEq

structure Global where
  players : List (Nat × Player)
  rooms : List (String × Room)
  pid_room : List (Nat × String)
  clients : List Nat
deriving DecidableEq

def KILL_GOAL : Int := 10
def ROUND_SECS : Int := 180
def SWORD_COOLDOWN : Int := 7
def SWORD_DMG : Int := 2

structure ShopItem where
  price : Int
  name : String
  category : String
  weapon : Option String := none
  color : Option String := none
deriving DecidableEq

/-- The static shop catalog (weapons and weapon skins). -/
def SHOP : List (String × ShopItem) := [
  ("smg",     { price := 15, name := "SMG",           category := "weapon" }),
  ("shotgun", { price := 20, name := "SHOTGUN",       category := "weapon" }),
  ("assault", { price := 25, name := "ASSAULT RIFLE", category := "weapon" }),
  ("sniper",  { price := 35, name := "SNIPER RIFLE",  category := "weapon" }),
  ("sword",   { price := 10, name := "SWORD",         category := "weapon" }),
  ("skin_pistol_golden",  { price := 20, name := "Golden Pistol",  category := "skin", weapon := some "pistol",  color := some "#FFD700" }),
  ("skin_pistol_ice",     { price := 20, name := "Ice Pistol",     category := "skin", weapon := some "pistol",  color := some "#A0E8FF" }),
  ("skin_pistol_inferno", { price := 25, name := "Inferno Pistol", category := "skin", weapon := some "pistol",  color := some "#FF4500" }),
  ("skin_smg_golden",     { price := 25, name := "Golden SMG",     category := "skin", weapon := some "smg",     color := some "#FFD700" }),
  ("skin_smg_neon",       { price := 25, name := "Neon SMG",       category := "skin", weapon := some "smg",     color := some "#39FF14" }),
  ("skin_smg_void",       { price := 30, name := "Void SMG",       category := "skin", weapon := some "smg",     color := some "#6A0DAD" }),
  ("skin_shotgun_golden", { price := 30, name := "Golden Shotgun", category := "skin", weapon := some "shotgun", color := some "#FFD700" }),
  ("skin_shotgun_rusty",  { price := 20, name := "Rusty Shotgun",  category := "skin", weapon := some "shotgun", color := some "#8B4513" }),
  ("skin_shotgun_ice",    { price := 30, name := "Ice Shotgun",    category := "skin", weapon := some "shotgun", color := some "#A0E8FF" }),
  ("skin_assault_golden", { price := 35, name := "Golden Assault", category := "skin", weapon := some "assault", color := some "#FFD700" }),
  ("skin_assault_camo",   { price := 30, name := "Camo Assault",   category := "skin", weapon := some "assault", color := some "#4B5320" }),
  ("skin_assault_chrome", { price := 40, name := "Chrome Assault", category := "skin", weapon := some "assault", color := some "#C0C0C0" }),
  ("skin_sniper_golden",  { price := 50, name := "Golden Sniper",  category := "skin", weapon := some "sniper",  color := some "#FFD700" }),
  ("skin_sniper_void",    { price := 45, name := "Void Sniper",    category := "skin", weapon := some "sniper",  color := some "#6A0DAD" }),
  ("skin_sniper_dragon",  { price := 60, name := "Dragon Sniper",  category := "skin", weapon := some "sniper",  color := some "#FF6B00" }),
  ("skin_sword_golden",   { price := 30, name := "Golden Sword",   category := "skin", weapon := some "sword",   color := some "#FFD700" }),
  ("skin_sword_shadow",   { price := 35, name := "Shadow Blade",   category := "skin", weapon := some "sword",   color := some "#1A1A2E" }),
  ("skin_sword_ice",      { price := 35, name := "Frostblade",     category := "skin", weapon := some "sword",   color := some "#A0E8FF" }),
  ("skin_sword_inferno",  { price := 40, name := "Inferno Blade",  category := "skin", weapon := some "sword",   color := some "#FF4500" }),
  ("skin_sword_electric", { price := 40, name := "Electric Blade", category := "skin", weapon := some "sword",   color := some "#FFFF00" })]

def GUN_AMMO : List (String × Int) :=
  [("pistol", 12), ("smg", 30), ("shotgun", 6), ("assault", 20), ("sniper", 5)]

/-- `GUN_AMMO.get(gun, dflt)`. -/
def gunAmmoOf (gun : String) (dflt : Int) : Int :=
  match lookupA gun GUN_AMMO with
  | some a => a
  | none => dflt

/-- `SHOP[skin_id]["color"] if skin_id in SHOP else None` (every entry whose
id can reach this lookup is a skin and carries a color, so the missing-key
KeyError of weapon entries is unreachable). -/
def shopColor (skin_id : String) : Option String :=
  match lookupA skin_id SHOP with
  | some item => item.color
  | none => none

/-- `make_player`: the spawn-default record. -/
def make_player (pid : Nat) (name team skin : String) : Player :=
  { pid := pid, name := name.take 12, team := team, skin := skin,
    x := if team = "red" then 100 else 1300, y := 400, angle := 0,
    hp := 3, maxHp := 3, dead := false, respTimer := 0,
    kills := 0, deaths := 0, score := 0,
    coins := 0, owned_skins := [], active_skins := [],
    gun := "pistol", ammo := 12, reloading := false,
    vx := 0, vy := 0, shield := 0, sword_cd := 0 }

structure KillInfo where
  killer_pid : Nat
  victim_pid : Nat
  killer_name : String
  victim_name : String
  killer_team : String
  weapon : String
  skinColor : Option String
  attacker_kills : Int
  attacker_score : Int
  attacker_coins : Int
  victim_deaths : Int
deriving DecidableEq

structure ResultRow where
  pid : Nat
  name : String
  team : String
  kills : Int
  deaths : Int
  score : Int
  coins : Int
deriving DecidableEq

/-- Observable effects of a handler: broadcasts, direct replies, and the
threads it spawns (respawn / round reset / deadline watcher). -/
inductive Event : Type
  | kill (info : KillInfo)
  | damaged (pid : Nat) (hp shield : Int)
  | respawnScheduled (pid : Nat) (room : String)
  | respawn (pid : Nat) (room : String)
  | roundEnd (room : String) (winner_pid : Option Nat) (winner_name : String)
      (results : List ResultRow)
  | resetScheduled (room : String)
  | returnToLobby (room : String)
  | playerLeft (pid : Nat) (room : String)
  | stateRelay (pid : Nat) (room : Option String) (x y angle vx vy : Int)
  | shootEv (pid : Nat) (room : Option String) (x y angle : Int) (gun : String)
  | reloaded (ammo : Int)
  | shopResult (success : Bool) (gun : Option String) (ammo : Option Int) (coins : Int)
  | skinResult (success : Bool) (skin_id : Option String) (coins : Int)
  | swordSwingEv (pid : Nat) (room : Option String) (x y angle : Int)
      (skinColor : Option String)
  | swordAllowed
  | swordDenied (remaining : Int)
  | chatMsg (pid : Nat) (room : Option String) (name : String) (text : String)
  | gameStarted (room : String) (round_ends : Int)
  | timerArmed (room : String)
deriving DecidableEq

/-! ## Combat resolution -/

/-- Damage application, lines `if target["shield"] > 0 ... else ...`:
shield absorbs first, floored at zero, excess not carried to health;
otherwise health takes the damage, floored at zero. -/
def hitDamage (dmg : Int) (t : Player) : Player :=
  if t.shield > 0 then { t with shield := max 0 (t.shield - dmg) }
  else { t with hp := max 0 (t.hp - dmg) }

/-- The target-side updates of a lethal hit. -/
def markDead (t : Player) : Player :=
  { t with dead := true, respTimer := 3, deaths := t.deaths + 1 }

/-- The attacker-side per-kill rewards. -/
def creditKill (a : Player) : Player :=
  { a with kills := a.kills + 1, score := a.score + 100, coins := a.coins + 5 }

structure SaveData where
  coins : Int
  owned_skins : List String
  active_skins : List (String × String)
deriving DecidableEq

/-- `_player_save_data`: the persistent subset of a record. -/
def player_save_data (p : Player) : SaveData :=
  { coins := p.coins, owned_skins := p.owned_skins, active_skins := p.active_skins }

/-- Stable descending insertion by score
(`results.sort(key=score, reverse=True)`). -/
def insertByScore (x : ResultRow) : List ResultRow → List ResultRow
  | [] => [x]
  | y :: ys => if x.score ≥ y.score then x :: y :: ys else y :: insertByScore x ys

def sortByScore : List ResultRow → List ResultRow
  | [] => []
  | x :: xs => insertByScore x (sortByScore xs)

/-- `end_round(room_code, winner_pid)`: guard on the ingame phase, mark the
room ended, snapshot each member's persistent data (the `saved` dict the
reset closure captures — returned here so the scheduled reset can use it),
broadcast the results, and spawn the reset thread. -/
def end_round (g : Global) (room_code : String) (winner_pid : Option Nat) :
    Global × List (Nat × SaveData) × List Event :=
  match lookupA room_code g.rooms with
  | none => (g, [], [])
  | some room =>
    if room.state = RoomState.ingame then
      let rooms1 := updA room_code (fun r => { r with state := RoomState.ended }) g.rooms
      let winner := winner_pid.bind (fun w => lookupA w g.players)
      let saved := room.players.filterMap
        (fun q => (lookupA q g.players).map (fun p => (q, player_save_data p)))
      let results := room.players.filterMap
        (fun q => (lookupA q g.players).map (fun p =>
          ({ pid := q, name := p.name, team := p.team, kills := p.kills,
             deaths := p.deaths, score := p.score, coins := p.coins } : ResultRow)))
      ({ g with rooms := rooms1 }, saved,
        [Event.roundEnd room_code winner_pid
          (match winner with | some w => w.name | none => "?") (sortByScore results),
         Event.resetScheduled room_code])
    else (g, [], [])

/-- The per-member update of `_reset_room`: reset combat state to spawn
defaults, restore persistence from the saved snapshot (`sv.get(key, p[key])`,
falling back to the live value when the member was not snapshotted). -/
def resetPlayer (sv : Option SaveData) (p : Player) : Player :=
  { p with
    x := if p.team = "red" then 100 else 1300, y := 400,
    angle := 0, hp := 3, maxHp := 3, dead := false, respTimer := 0,
    kills := 0, deaths := 0, score := 0,
    gun := "pistol", ammo := 12, reloading := false,
    vx := 0, vy := 0, shield := 0, sword_cd := 0,
    coins := match sv with | some s => s.coins | none => p.coins,
    owned_skins := match sv with | some s => s.owned_skins | none => p.owned_skins,
    active_skins := match sv with | some s => s.active_skins | none => p.active_skins }

/-- `_reset_room` (the closure spawned by end_round, firing after the
scoreboard delay): no-op if the room is gone, otherwise back to lobby and
every member still present is reset. -/
def reset_room (g : Global) (room_code : String) (saved : List (Nat × SaveData)) :
    Global × List Event :=
  match lookupA room_code g.rooms with
  | none => (g, [])
  | some room =>
    let rooms1 := updA room_code
      (fun r => { r with state := RoomState.lobby, round_timer := 0 }) g.rooms
    let players1 := room.players.foldl
      (fun ps q =>
        match lookupA q ps with
        | some _ => updA q (resetPlayer (lookupA q saved)) ps
        | none => ps) g.players
    ({ g with players := players1, rooms := rooms1 },
      [Event.returnToLobby room_code])

/-- `do_respawn` (the delayed respawn thread body): restore the target to
spawn defaults if still connected; the respawn broadcast fires either
way. -/
def do_respawn (g : Global) (tpid : Nat) (rc : String) : Global × List Event :=
  let players1 :=
    match lookupA tpid g.players with
    | some _ => updA tpid (fun p2 =>
        { p2 with
          dead := false, hp := p2.maxHp,
          x := if p2.team = "red" then 100 else 1300, y := 400,
          gun := "pistol", ammo := 12, shield := 0, sword_cd := 0 }) g.players
    | none => g.players
  ({ g with players := players1 }, [Event.respawn tpid rc])

/-- Body of the `hit` message handler after the effective damage has been
selected (`dmg = SWORD_DMG if is_sword else int(msg.get("dmg", 1))`),
composed with the `end_round` call it makes after releasing the lock when
the kill goal is reached.  Updates are applied to the player table one
mutation at a time, in source order, which keeps the model faithful even
when attacker and target alias. -/
def hitApply (g : Global) (pid : Nat) (target_pid : Option Nat)
    (dmg : Int) : Global × List Event :=
  -- `code = pid_room.get(pid)` is inlined into its two uses below
  match lookupA pid g.players,
        target_pid.bind (fun t => lookupA t g.players),
        (lookupA pid g.pid_room).bind (fun c => lookupA c g.rooms),
        target_pid, lookupA pid g.pid_room with
  | some _, some target, some room, some tpid, some c =>
    if target.dead = false ∧ room.state = RoomState.ingame then
      let ps1 := updA tpid (hitDamage dmg) g.players
      match lookupA tpid ps1 with
      | none => (g, [])   -- unreachable: tpid was present before the update
      | some t1 =>
        if t1.hp ≤ 0 ∧ t1.dead = false then
          let ps2 := updA tpid markDead ps1
          let ps3 := updA pid creditKill ps2
          match lookupA pid ps3, lookupA tpid ps3 with
          | some atk, some tgt =>
            let gun_used := atk.gun
            let skin_id := lookupA gun_used atk.active_skins
            let kill_info : KillInfo :=
              { killer_pid := pid, victim_pid := tpid,
                killer_name := atk.name, victim_name := tgt.name,
                killer_team := atk.team, weapon := gun_used,
                skinColor := skin_id.bind shopColor,
                attacker_kills := atk.kills, attacker_score := atk.score,
                attacker_coins := atk.coins, victim_deaths := tgt.deaths }
            let round_over := atk.kills ≥ room.kill_goal
            let g1 : Global := { g with players := ps3 }
            if round_over then
              let r := end_round g1 c (some pid)
              (r.1, Event.kill kill_info :: r.2.2)
            else
              (g1, [Event.kill kill_info, Event.respawnScheduled tpid c])
          | _, _ => (g, [])  -- unreachable
        else
          ({ g with players := ps1 }, [Event.damaged tpid t1.hp t1.shield])
    else (g, [])
  | _, _, _, _, _ => (g, [])

/-- The `hit` message handler: pick the effective damage, then resolve. -/
def hitHandler (g : Global) (pid : Nat) (target_pid : Option Nat)
    (isSword : Bool) (dmgRaw : Int) : Global × List Event :=
  hitApply g pid target_pid (if isSword then SWORD_DMG else dmgRaw)

/-- One iteration of the leader scan of the deadline watcher `_timer_end`
(`if pl and pl["kills"] > best_kills`): the accumulator is the running
(best_pid, best_kills) pair; strict `>` keeps the first-encountered member
on ties. -/
def leaderStep (ps : List (Nat × Player)) (acc : Option Nat × Int) (q : Nat) :
    Option Nat × Int :=
  match lookupA q ps with
  | some pl => if pl.kills > acc.2 then (some q, pl.kills) else acc
  | none => acc

/-- The leader scan itself, starting from `best_pid = None`,
`best_kills = -1`. -/
def findLeader (members : List Nat) (ps : List (Nat × Player)) : Option Nat × Int :=
  members.foldl (leaderStep ps) (none, -1)

/-- `_timer_end` body after its sleep: no-op unless the room still exists
and is still ingame; otherwise pick the kill leader and end the round. -/
def timer_end (g : Global) (rc : String) : Global × List Event :=
  match lookupA rc g.rooms with
  | none => (g, [])
  | some r =>
    if r.state = RoomState.ingame then
      let best := findLeader r.players g.players
      let e := end_round g rc best.1
      (e.1, e.2.2)
    else (g, [])

/-- `remove_client`: drop the session from every table, discard it from its
room's member set, destroy the room when that leaves it empty (the host
field of a surviving room is not touched). -/
def remove_client (g : Global) (pid : Nat) : Global × List Event :=
  let clients1 := g.clients.filter (fun q => q ≠ pid)
  let p := lookupA pid g.players
  let players1 := eraseA pid g.players
  let code := lookupA pid g.pid_room
  let pid_room1 := eraseA pid g.pid_room
  let rooms1 :=
    match code with
    | some c =>
      match lookupA c g.rooms with
      | some room =>
        if room.players.filter (fun q => q ≠ pid) = [] then eraseA c g.rooms
        else updA c (fun r => { r with players := r.players.filter (fun q => q ≠ pid) }) g.rooms
      | none => g.rooms
    | none => g.rooms
  let evs :=
    match p, code with
    | some _, some c => [Event.playerLeft pid c]
    | _, _ => []
  ({ players := players1, rooms := rooms1, pid_room := pid_room1,
     clients := clients1 }, evs)

/-- `_gen_code`.  The source is an unbounded `while True` retry loop with no
failure return; the model adds a fuel counter bounding how many iterations
are observed, an oracle `proposals` standing for the successive
`random.choices` draws, and a membership test standing for
`code not in rooms`.  `none` means the loop is still running after `fuel`
iterations — the source has no error value it could return. -/
def gen_code_from (proposals : Nat → String) (inRooms : String → Bool) :
    Nat → Nat → Option String
  | 0, _ => none
  | fuel + 1, i =>
    if inRooms (proposals i) then gen_code_from proposals inRooms fuel (i + 1)
    else some (proposals i)

def gen_code (fuel : Nat) (proposals : Nat → String) (inRooms : String → Bool) :
    Option String :=
  gen_code_from proposals inRooms fuel 0

/-! ## Message dispatch

One dispatch of the handle_client read loop, for the well-formed message
types that act on an existing player record; the room-creating types
(createRoom / joinRoom / legacy join) instead create the record and are not
modelled here.  Message fields present in the JSON are `some`, absent ones
`none` (`msg.get` defaults). -/

inductive Msg : Type
  | state (x y angle vx vy : Option Int)
  | shoot (x y angle : Int) (gun : String)
  | hit (target : Option Nat) (isSword : Bool) (dmg : Int)
  | reload
  | buyGun (gun : Option String)
  | buySkin (skin_id : Option String)
  | swordSwing (x y angle : Int)
  | chat (text : String)
  | startGame
deriving DecidableEq

/-- Dict assignment `d[k] = v` (update or append in insertion order). -/
def setA {α β : Type} [DecidableEq α] (k : α) (v : β) (l : List (α × β)) :
    List (α × β) :=
  match lookupA k l with
  | some _ => updA k (fun _ => v) l
  | none => l ++ [(k, v)]

/-- One message dispatch.  The result is `none` when the handler raises an
uncaught exception (the read loop has no try/except around the dispatch, so
this kills the connection's thread): the `state` handler dereferences the
record when building its broadcast and the `reload` handler when building
its reply, both outside the `if p:` guard. -/
def handleMessage (now : Int) (g : Global) (pid : Nat) (m : Msg) :
    Option (Global × List Event) :=
  match m with
  | .state x y angle vx vy =>
    let code := lookupA pid g.pid_room
    let players1 :=
      match lookupA pid g.players with
      | some p =>
        if p.dead = false then
          updA pid (fun q =>
            { q with
              x := x.getD q.x, y := y.getD q.y, angle := angle.getD q.angle,
              vx := vx.getD 0, vy := vy.getD 0 }) g.players
        else g.players
      | none => g.players
    match lookupA pid players1 with
    | none => none   -- broadcast reads p["x"] with p = None: TypeError
    | some p1 => some ({ g with players := players1 },
        [Event.stateRelay pid code p1.x p1.y p1.angle p1.vx p1.vy])
  | .shoot x y angle gun =>
    let code := lookupA pid g.pid_room
    let players1 := updA pid (fun p => { p with ammo := max 0 (p.ammo - 1) }) g.players
    some ({ g with players := players1 }, [Event.shootEv pid code x y angle gun])
  | .hit target isSword dmg => some (hitHandler g pid target isSword dmg)
  | .reload =>
    let players1 := updA pid
      (fun p => { p with ammo := gunAmmoOf p.gun 12, reloading := false }) g.players
    match lookupA pid players1 with
    | none => none   -- the reply reads p["gun"] with p = None: TypeError
    | some p => some ({ g with players := players1 },
        [Event.reloaded (gunAmmoOf p.gun 12)])
  | .buyGun gun_id =>
    match gun_id with
    | none =>
      match lookupA pid g.players with
      | some p => some (g, [Event.shopResult false none none p.coins])
      | none => some (g, [])
    | some gid =>
      match lookupA pid g.players, lookupA gid SHOP with
      | some p, some item =>
        if item.category = "weapon" ∧ p.coins ≥ item.price then
          let players1 := updA pid (fun q =>
            { q with
              coins := q.coins - item.price, gun := gid,
              ammo := gunAmmoOf gid 0 }) g.players
          some ({ g with players := players1 },
            [Event.shopResult true (some gid) (some (gunAmmoOf gid 0))
              (p.coins - item.price)])
        else some (g, [Event.shopResult false none none p.coins])
      | some p, none => some (g, [Event.shopResult false none none p.coins])
      | none, _ => some (g, [])
  | .buySkin skin_id =>
    match skin_id with
    | none => some (g, [])
    | some sid =>
      match lookupA pid g.players, lookupA sid SHOP with
      | some p, some item =>
        if item.category = "skin" then
          if sid ∈ p.owned_skins then
            let players1 := updA pid (fun q =>
              { q with active_skins := setA (item.weapon.getD "") sid q.active_skins })
              g.players
            some ({ g with players := players1 },
              [Event.skinResult true (some sid) p.coins])
          else if p.coins ≥ item.price then
            let players1 := updA pid (fun q =>
              { q with
                coins := q.coins - item.price,
                owned_skins := q.owned_skins ++ [sid],
                active_skins := setA (item.weapon.getD "") sid q.active_skins })
              g.players
            some ({ g with players := players1 },
              [Event.skinResult true (some sid) (p.coins - item.price)])
          else some (g, [Event.skinResult false (some sid) p.coins])
        else some (g, [])
      | _, _ => some (g, [])
  | .swordSwing x y angle =>
    let code := lookupA pid g.pid_room
    match lookupA pid g.players with
    | some p =>
      if p.gun = "sword" ∧ p.dead = false then
        if now ≥ p.sword_cd then
          let players1 := updA pid
            (fun q => { q with sword_cd := now + SWORD_COOLDOWN }) g.players
          let skin_color := (lookupA pid players1).bind
            (fun q => (lookupA "sword" q.active_skins).bind shopColor)
          some ({ g with players := players1 },
            [Event.swordSwingEv pid code x y angle skin_color, Event.swordAllowed])
        else some (g, [Event.swordDenied (p.sword_cd - now)])
      else some (g, [Event.swordDenied 0])
    | none => some (g, [Event.swordDenied 0])
  | .chat text =>
    let code := lookupA pid g.pid_room
    let name := match lookupA pid g.players with | some p => p.name | none => "?"
    some (g, [Event.chatMsg pid code name (text.take 80)])
  | .startGame =>
    let code := lookupA pid g.pid_room
    match code.bind (fun c => lookupA c g.rooms), code with
    | some room, some c =>
      if room.host_pid = pid ∧ room.state = RoomState.lobby then
        let rooms1 := updA c (fun r =>
          { r with state := RoomState.ingame, round_timer := now + ROUND_SECS })
          g.rooms
        some ({ g with rooms := rooms1 },
          [Event.gameStarted c (now + ROUND_SECS), Event.timerArmed c])
      else some (g, [])
    | _, _ => some (g, [])

/-! ## Single-lobby variant (rivals_server.py)

Only the fields the disconnect path reads are carried per player. -/

structure LPlayer where
  name : String
  bot : Bool
deriving DecidableEq

structure LobbyState where
  players : List (String × LPlayer)
  host_id : Option String
deriving DecidableEq

inductive LEvent : Type
  | promoted (pid : String)
  | lobbySnapshot
deriving DecidableEq

/-- Disconnect cleanup of Handler._ws_upgrade (its finally block): drop the
player; when the departed session was the host, promote the first remaining
non-bot player in dict (= list) order, or clear the host when none
remains. -/
def lobbyRemove (L : LobbyState) (pid : String) : LobbyState × List LEvent :=
  let players1 := eraseA pid L.players
  if L.host_id = some pid then
    let remaining := (players1.filter (fun kv => kv.2.bot = false)).map Prod.fst
    let host1 := remaining.head?
    ({ players := players1, host_id := host1 },
      (match host1 with | some h => [LEvent.promoted h] | none => []) ++
        [LEvent.lobbySnapshot])
  else ({ players := players1, host_id := L.host_id }, [LEvent.lobbySnapshot])

/-! ## Helper lemmas -/

theorem updA_of_lookupA_none {α β : Type} [DecidableEq α] {k : α} (f : β → β)
    {l : List (α × β)} (h : lookupA k l = none) : updA k f l = l := by
  induction l with
  | nil => rfl
  | cons hd t ih =>
    obtain ⟨a, b⟩ := hd
    by_cases hak : a = k
    · subst hak
      simp [lookupA] at h
    · simp only [lookupA, if_neg hak] at h
      simp [updA, hak, ih h]

theorem end_round_players (g : Global) (rc : String) (w : Option Nat) :
    (end_round g rc w).1.players = g.players := by
  unfold end_round
  cases hlook : lookupA rc g.rooms with
  | none => rfl
  | some room =>
    by_cases h : room.state = RoomState.ingame <;> simp [h]

/-- In the ingame phase `end_round` marks the room ended, snapshots the
members and emits exactly the round-end broadcast and the reset thread. -/
theorem end_round_ingame (g : Global) (rc : String) (w : Option Nat) (room : Room)
    (h : lookupA rc g.rooms = some room) (hs : room.state = RoomState.ingame) :
    end_round g rc w =
      ({ g with rooms := updA rc (fun r => { r with state := RoomState.ended }) g.rooms },
       room.players.filterMap
         (fun q => (lookupA q g.players).map (fun p => (q, player_save_data p))),
       [Event.roundEnd rc w
          (match w.bind (fun q => lookupA q g.players) with
           | some wp => wp.name
           | none => "?")
          (sortByScore (room.players.filterMap
            (fun q => (lookupA q g.players).map (fun p =>
              ({ pid := q, name := p.name, team := p.team, kills := p.kills,
                 deaths := p.deaths, score := p.score, coins := p.coins } : ResultRow))))),
        Event.resetScheduled rc]) := by
  unfold end_round
  simp [h, hs]

/-! ## C1 / C8: hit resolution -/

/-- Failure of any guard of the hit handler leaves the state untouched and
emits nothing. -/
theorem hitApply_rejects (g : Global) (pid : Nat) (target_pid : Option Nat)
    (dmg : Int)
    (hfail : lookupA pid g.players = none ∨
      target_pid = none ∨
      (∃ t, target_pid = some t ∧ lookupA t g.players = none) ∨
      (∃ t tgt, target_pid = some t ∧ lookupA t g.players = some tgt ∧ tgt.dead = true) ∨
      (lookupA pid g.pid_room).bind (fun c => lookupA c g.rooms) = none ∨
      (∃ r, (lookupA pid g.pid_room).bind (fun c => lookupA c g.rooms) = some r ∧
        r.state ≠ RoomState.ingame)) :
    hitApply g pid target_pid dmg = (g, []) := by
  unfold hitApply
  split
  · rcases hfail with h | h | h | h | h | h <;> simp_all
  · rfl

/-- C1 (core): with all guards satisfied and shield charge present, the
whole damage goes to the shield (floored at zero) and health is untouched
by this hit, whatever the lethality bookkeeping does afterwards. -/
theorem hitApply_shield_absorbs (g : Global) (pid tpid : Nat) (c : String)
    (room : Room) (atk tgt : Player) (dmg : Int)
    (hcode : lookupA pid g.pid_room = some c)
    (hroom : lookupA c g.rooms = some room)
    (hactive : room.state = RoomState.ingame)
    (hatk : lookupA pid g.players = some atk)
    (htgt : lookupA tpid g.players = some tgt)
    (halive : tgt.dead = false)
    (hshield : tgt.shield > 0) :
    ∃ tgt2,
      lookupA tpid (hitApply g pid (some tpid) dmg).1.players = some tgt2 ∧
      tgt2.hp = tgt.hp ∧ tgt2.shield = max 0 (tgt.shield - dmg) := by
  have hbind : (some tpid).bind (fun t => lookupA t g.players) = some tgt := by
    simp [htgt]
  have hbind2 : (lookupA pid g.pid_room).bind (fun cc => lookupA cc g.rooms)
      = some room := by
    rw [hcode]
    simp [hroom]
  have hd_hp : (hitDamage dmg tgt).hp = tgt.hp := by
    simp [hitDamage, if_pos hshield]
  have hd_sh : (hitDamage dmg tgt).shield = max 0 (tgt.shield - dmg) := by
    simp [hitDamage, if_pos hshield]
  have hps1 : lookupA tpid (updA tpid (hitDamage dmg) g.players)
      = some (hitDamage dmg tgt) := by
    rw [lookupA_updA_self, htgt]
    rfl
  unfold hitApply
  rw [hatk, hbind, hbind2, hcode]
  simp only [if_pos (show tgt.dead = false ∧ room.state = RoomState.ingame from
    ⟨halive, hactive⟩), hps1]
  by_cases hl : (hitDamage dmg tgt).hp ≤ 0 ∧ (hitDamage dmg tgt).dead = false
  · rw [if_pos hl]
    by_cases hpt : pid = tpid
    · subst hpt
      have h1 : lookupA pid (updA pid creditKill (updA pid markDead
          (updA pid (hitDamage dmg) g.players)))
          = some (creditKill (markDead (hitDamage dmg tgt))) := by
        rw [lookupA_updA_self, lookupA_updA_self, lookupA_updA_self, htgt]
        rfl
      simp only [h1]
      by_cases hro : (creditKill (markDead (hitDamage dmg tgt))).kills ≥ room.kill_goal
      · rw [if_pos hro]
        refine ⟨creditKill (markDead (hitDamage dmg tgt)), ?_, hd_hp, hd_sh⟩
        rw [end_round_players]
        exact h1
      · rw [if_neg hro]
        exact ⟨creditKill (markDead (hitDamage dmg tgt)), h1, hd_hp, hd_sh⟩
    · have htp : tpid ≠ pid := fun hh => hpt hh.symm
      have h1 : lookupA tpid (updA pid creditKill (updA tpid markDead
          (updA tpid (hitDamage dmg) g.players)))
          = some (markDead (hitDamage dmg tgt)) := by
        rw [lookupA_updA_ne htp, lookupA_updA_self, lookupA_updA_self, htgt]
        rfl
      have h2 : lookupA pid (updA pid creditKill (updA tpid markDead
          (updA tpid (hitDamage dmg) g.players)))
          = some (creditKill atk) := by
        rw [lookupA_updA_self, lookupA_updA_ne hpt, lookupA_updA_ne hpt, hatk]
        rfl
      simp only [h1, h2]
      by_cases hro : (creditKill atk).kills ≥ room.kill_goal
      · rw [if_pos hro]
        refine ⟨markDead (hitDamage dmg tgt), ?_, hd_hp, hd_sh⟩
        rw [end_round_players]
        exact h1
      · rw [if_neg hro]
        exact ⟨markDead (hitDamage dmg tgt), h1, hd_hp, hd_sh⟩
  · rw [if_neg hl]
    exact ⟨hitDamage dmg tgt, hps1, hd_hp, hd_sh⟩

/-- C3 (core): a lethal hit (no shield, damage at least the remaining
health) marks the target dead with its deaths incremented, credits the
attacker with the fixed per-kill rewards, broadcasts a kill event, and
schedules the delayed respawn exactly when the attacker's new kill count is
still below the room's kill goal — otherwise the round ends instead
(room marked ended, round-end broadcast).  The scheduled respawn restores
spawn defaults. -/
theorem hitApply_lethal (g : Global) (pid tpid : Nat) (c : String)
    (room : Room) (atk tgt : Player) (dmg : Int)
    (hcode : lookupA pid g.pid_room = some c)
    (hroom : lookupA c g.rooms = some room)
    (hactive : room.state = RoomState.ingame)
    (hatk : lookupA pid g.players = some atk)
    (htgt : lookupA tpid g.players = some tgt)
    (halive : tgt.dead = false)
    (hpt : pid ≠ tpid)
    (hshield : tgt.shield ≤ 0) (hlethal : tgt.hp ≤ dmg) :
    (∃ tgt2, lookupA tpid (hitApply g pid (some tpid) dmg).1.players = some tgt2 ∧
       tgt2.dead = true ∧ tgt2.deaths = tgt.deaths + 1 ∧ tgt2.hp = 0) ∧
    (∃ atk2, lookupA pid (hitApply g pid (some tpid) dmg).1.players = some atk2 ∧
       atk2.kills = atk.kills + 1 ∧ atk2.score = atk.score + 100 ∧
       atk2.coins = atk.coins + 5) ∧
    (∃ info, Event.kill info ∈ (hitApply g pid (some tpid) dmg).2 ∧
       info.killer_pid = pid ∧ info.victim_pid = tpid ∧
       info.attacker_kills = atk.kills + 1) ∧
    ((Event.respawnScheduled tpid c ∈ (hitApply g pid (some tpid) dmg).2) ↔
       atk.kills + 1 < room.kill_goal) ∧
    (room.kill_goal ≤ atk.kills + 1 →
      (∃ r2, lookupA c (hitApply g pid (some tpid) dmg).1.rooms = some r2 ∧
         r2.state = RoomState.ended) ∧
      ∃ wname results,
        Event.roundEnd c (some pid) wname results ∈ (hitApply g pid (some tpid) dmg).2) ∧
    (∀ g2 p2, lookupA tpid g2.players = some p2 →
      ∃ p3, lookupA tpid (do_respawn g2 tpid c).1.players = some p3 ∧
        p3.dead = false ∧ p3.hp = p2.maxHp ∧ p3.gun = "pistol" ∧ p3.ammo = 12 ∧
        p3.shield = 0 ∧ p3.x = (if p2.team = "red" then 100 else 1300) ∧ p3.y = 400) := by
  have hbind : (some tpid).bind (fun t => lookupA t g.players) = some tgt := by
    simp [htgt]
  have hbind2 : (lookupA pid g.pid_room).bind (fun cc => lookupA cc g.rooms)
      = some room := by
    rw [hcode]
    simp [hroom]
  have hnoshield : ¬ tgt.shield > 0 := by omega
  have hd_hp : (hitDamage dmg tgt).hp = 0 := by
    simp only [hitDamage, if_neg hnoshield]
    omega
  have hd_dead : (hitDamage dmg tgt).dead = false := by
    simp only [hitDamage, if_neg hnoshield]
    exact halive
  have hd_deaths : (hitDamage dmg tgt).deaths = tgt.deaths := by
    simp only [hitDamage, if_neg hnoshield]
  have hps1 : lookupA tpid (updA tpid (hitDamage dmg) g.players)
      = some (hitDamage dmg tgt) := by
    rw [lookupA_updA_self, htgt]
    rfl
  have htp : tpid ≠ pid := fun hh => hpt hh.symm
  have h1 : lookupA tpid (updA pid creditKill (updA tpid markDead
      (updA tpid (hitDamage dmg) g.players)))
      = some (markDead (hitDamage dmg tgt)) := by
    rw [lookupA_updA_ne htp, lookupA_updA_self, lookupA_updA_self, htgt]
    rfl
  have h2 : lookupA pid (updA pid creditKill (updA tpid markDead
      (updA tpid (hitDamage dmg) g.players)))
      = some (creditKill atk) := by
    rw [lookupA_updA_self, lookupA_updA_ne hpt, lookupA_updA_ne hpt, hatk]
    rfl
  have hresp : ∀ g2 p2, lookupA tpid g2.players = some p2 →
      ∃ p3, lookupA tpid (do_respawn g2 tpid c).1.players = some p3 ∧
        p3.dead = false ∧ p3.hp = p2.maxHp ∧ p3.gun = "pistol" ∧ p3.ammo = 12 ∧
        p3.shield = 0 ∧ p3.x = (if p2.team = "red" then 100 else 1300) ∧
        p3.y = 400 := by
    intro g2 p2 hp2
    unfold do_respawn
    rw [hp2]
    refine ⟨{ p2 with
              dead := false, hp := p2.maxHp,
              x := if p2.team = "red" then 100 else 1300, y := 400,
              gun := "pistol", ammo := 12, shield := 0, sword_cd := 0 },
      ?_, rfl, rfl, rfl, rfl, rfl, rfl, rfl⟩
    rw [lookupA_updA_self, hp2]
    rfl
  unfold hitApply
  rw [hatk, hbind, hbind2, hcode]
  simp only [if_pos (show tgt.dead = false ∧ room.state = RoomState.ingame from
    ⟨halive, hactive⟩), hps1]
  rw [if_pos (show (hitDamage dmg tgt).hp ≤ 0 ∧ (hitDamage dmg tgt).dead = false from
    ⟨le_of_eq hd_hp, hd_dead⟩)]
  simp only [h1, h2]
  by_cases hro : (creditKill atk).kills ≥ room.kill_goal
  · rw [if_pos hro]
    have hck : (creditKill atk).kills = atk.kills + 1 := rfl
    rw [hck] at hro
    have g1rooms : lookupA c ({ g with players := updA pid creditKill (updA tpid markDead
        (updA tpid (hitDamage dmg) g.players)) } : Global).rooms = some room := hroom
    rw [end_round_ingame _ c (some pid) room g1rooms hactive]
    refine ⟨⟨markDead (hitDamage dmg tgt), h1, rfl, by simp [markDead, hd_deaths], hd_hp⟩,
      ⟨creditKill atk, h2, rfl, rfl, rfl⟩,
      ⟨_, List.mem_cons_self _ _, rfl, rfl, hck⟩, ?_, ?_, hresp⟩
    · constructor
      · intro hmem
        simp at hmem
      · intro hlt
        omega
    · intro _
      refine ⟨⟨{ room with state := RoomState.ended }, ?_, rfl⟩, ?_⟩
      · rw [lookupA_updA_self, hroom]
        rfl
      · exact ⟨_, _, List.mem_cons_of_mem _ (List.mem_cons_self _ _)⟩
  · rw [if_neg hro]
    have hck : (creditKill atk).kills = atk.kills + 1 := rfl
    rw [hck] at hro
    refine ⟨⟨markDead (hitDamage dmg tgt), h1, rfl, by simp [markDead, hd_deaths], hd_hp⟩,
      ⟨creditKill atk, h2, rfl, rfl, rfl⟩,
      ⟨_, List.mem_cons_self _ _, rfl, rfl, hck⟩, ?_, ?_, hresp⟩
    · constructor
      · intro _
        omega
      · intro _
        simp
    · intro hge
      omega

/-! ## C4: round end then reset to lobby -/

theorem resetPlayer_idem (sv : Option SaveData) (p : Player) :
    resetPlayer sv (resetPlayer sv p) = resetPlayer sv p := by
  cases sv <;> rfl

theorem lookupA_filterMap_save {β : Type} (ps : List (Nat × Player))
    (f : Player → β) (pid : Nat) (p : Player) :
    ∀ members : List Nat, pid ∈ members → lookupA pid ps = some p →
    lookupA pid (members.filterMap
      (fun q => (lookupA q ps).map (fun x => (q, f x)))) = some (f p) := by
  intro members
  induction members with
  | nil => intro h _; cases h
  | cons m ms ih =>
    intro hmem hp
    by_cases hqm : m = pid
    · subst hqm
      simp [List.filterMap_cons, hp, lookupA]
    · have hmem2 : pid ∈ ms :=
        (List.mem_cons.mp hmem).resolve_left (fun h => hqm h.symm)
      cases hl : lookupA m ps with
      | none =>
        simp only [List.filterMap_cons, hl, Option.map_none']
        exact ih hmem2 hp
      | some pm =>
        simp only [List.filterMap_cons, hl, Option.map_some']
        rw [lookupA_cons, if_neg hqm]
        exact ih hmem2 hp

theorem lookupA_reset_foldl_stable (saved : List (Nat × SaveData)) (pid : Nat) :
    ∀ (members : List Nat) (ps : List (Nat × Player)) (r : Player),
    lookupA pid ps = some r → resetPlayer (lookupA pid saved) r = r →
    lookupA pid (members.foldl
      (fun ps q =>
        match lookupA q ps with
        | some _ => updA q (resetPlayer (lookupA q saved)) ps
        | none => ps) ps) = some r := by
  intro members
  induction members with
  | nil =>
    intro ps r h _
    exact h
  | cons m ms ih =>
    intro ps r h hfix
    simp only [List.foldl_cons]
    by_cases hqm : m = pid
    · subst hqm
      simp only [h]
      refine ih _ r ?_ hfix
      rw [lookupA_updA_self, h, Option.map_some', hfix]
    · cases hl : lookupA m ps with
      | none =>
        simp only [hl]
        exact ih ps r h hfix
      | some pm =>
        simp only [hl]
        refine ih _ r ?_ hfix
        rw [lookupA_updA_ne (fun hh => hqm hh.symm)]
        exact h

theorem lookupA_reset_foldl (saved : List (Nat × SaveData)) (pid : Nat) :
    ∀ (members : List Nat) (ps : List (Nat × Player)) (p : Player),
    pid ∈ members → lookupA pid ps = some p →
    lookupA pid (members.foldl
      (fun ps q =>
        match lookupA q ps with
        | some _ => updA q (resetPlayer (lookupA q saved)) ps
        | none => ps) ps) = some (resetPlayer (lookupA pid saved) p) := by
  intro members
  induction members with
  | nil =>
    intro _ _ h
    cases h
  | cons m ms ih =>
    intro ps p hmem hp
    simp only [List.foldl_cons]
    by_cases hqm : m = pid
    · subst hqm
      simp only [hp]
      refine lookupA_reset_foldl_stable saved m ms _ _ ?_ (resetPlayer_idem _ _)
      rw [lookupA_updA_self, hp, Option.map_some']
    · have hmem2 : pid ∈ ms :=
        (List.mem_cons.mp hmem).resolve_left (fun h => hqm h.symm)
      cases hl : lookupA m ps with
      | none =>
        simp only [hl]
        exact ih ps p hmem2 hp
      | some pm =>
        simp only [hl]
        refine ih _ p hmem2 ?_
        rw [lookupA_updA_ne (fun hh => hqm hh.symm)]
        exact hp

/-- C4 (core): composing `end_round` with the `_reset_room` it schedules,
every member that was present at round end and is still present at reset
keeps its currency, owned cosmetics and equipped-cosmetic map, while all
combat fields return to spawn defaults. -/
theorem round_reset_core (g : Global) (rc : String) (room : Room) (w : Option Nat)
    (pid : Nat) (p : Player)
    (hroom : lookupA rc g.rooms = some room)
    (hingame : room.state = RoomState.ingame)
    (hmem : pid ∈ room.players)
    (hp : lookupA pid g.players = some p) :
    ∃ p2, lookupA pid
        (reset_room (end_round g rc w).1 rc (end_round g rc w).2.1).1.players
        = some p2 ∧
      p2.coins = p.coins ∧ p2.owned_skins = p.owned_skins ∧
      p2.active_skins = p.active_skins ∧
      p2.kills = 0 ∧ p2.deaths = 0 ∧ p2.score = 0 ∧
      p2.hp = 3 ∧ p2.dead = false ∧
      p2.x = (if p.team = "red" then 100 else 1300) ∧ p2.y = 400 ∧
      p2.gun = "pistol" ∧ p2.ammo = 12 ∧ p2.shield = 0 := by
  rw [end_round_ingame g rc w room hroom hingame]
  unfold reset_room
  have hr2 : lookupA rc (updA rc (fun r => { r with state := RoomState.ended }) g.rooms)
      = some { room with state := RoomState.ended } := by
    rw [lookupA_updA_self, hroom, Option.map_some']
  simp only [hr2]
  have hsaved : lookupA pid (room.players.filterMap
      (fun q => (lookupA q g.players).map (fun x => (q, player_save_data x))))
      = some (player_save_data p) :=
    lookupA_filterMap_save g.players player_save_data pid p room.players hmem hp
  have hfold := lookupA_reset_foldl
    (room.players.filterMap
      (fun q => (lookupA q g.players).map (fun x => (q, player_save_data x))))
    pid room.players g.players p hmem hp
  rw [hsaved] at hfold
  exact ⟨resetPlayer (some (player_save_data p)) p, hfold,
    rfl, rfl, rfl, rfl, rfl, rfl, rfl, rfl, rfl, rfl, rfl, rfl, rfl⟩

/-! ## C7: deadline watcher -/

theorem leaderFold_spec (ps : List (Nat × Player)) :
    ∀ (members : List Nat) (acc : Option Nat × Int),
    (members.foldl (leaderStep ps) acc = acc ∧
      ∀ q ∈ members, ∀ pq, lookupA q ps = some pq → pq.kills ≤ acc.2) ∨
    (∃ pre w post pw, members = pre ++ w :: post ∧ lookupA w ps = some pw ∧
      members.foldl (leaderStep ps) acc = (some w, pw.kills) ∧ acc.2 < pw.kills ∧
      (∀ q ∈ pre, ∀ pq, lookupA q ps = some pq → pq.kills < pw.kills) ∧
      (∀ q ∈ post, ∀ pq, lookupA q ps = some pq → pq.kills ≤ pw.kills)) := by
  intro members
  induction members with
  | nil =>
    intro acc
    left
    exact ⟨rfl, by simp⟩
  | cons m ms ih =>
    intro acc
    simp only [List.foldl_cons]
    cases hl : lookupA m ps with
    | none =>
      have hstep : leaderStep ps acc m = acc := by simp [leaderStep, hl]
      rw [hstep]
      rcases ih acc with ⟨hfold, hbound⟩ |
        ⟨pre, w, post, pw, hsplit, hw, hfold, hacc, hpre, hpost⟩
      · left
        refine ⟨hfold, ?_⟩
        intro q hq pq hpq
        rcases List.mem_cons.mp hq with rfl | hq2
        · rw [hl] at hpq
          cases hpq
        · exact hbound q hq2 pq hpq
      · right
        refine ⟨m :: pre, w, post, pw, by rw [hsplit]; rfl, hw, hfold, hacc, ?_, hpost⟩
        intro q hq pq hpq
        rcases List.mem_cons.mp hq with rfl | hq2
        · rw [hl] at hpq
          cases hpq
        · exact hpre q hq2 pq hpq
    | some pm =>
      by_cases hgt : pm.kills > acc.2
      · have hstep : leaderStep ps acc m = (some m, pm.kills) := by
          simp [leaderStep, hl, hgt]
        rw [hstep]
        rcases ih (some m, pm.kills) with ⟨hfold, hbound⟩ |
          ⟨pre, w, post, pw, hsplit, hw, hfold, hacc, hpre, hpost⟩
        · right
          exact ⟨[], m, ms, pm, by simp, hl, hfold, hgt, by simp, hbound⟩
        · right
          have hacc2 : pm.kills < pw.kills := by simpa using hacc
          refine ⟨m :: pre, w, post, pw, by rw [hsplit]; rfl, hw, hfold,
            lt_trans hgt hacc2, ?_, hpost⟩
          intro q hq pq hpq
          rcases List.mem_cons.mp hq with rfl | hq2
          · rw [hl] at hpq
            obtain rfl := Option.some_injective _ hpq
            exact hacc2
          · exact hpre q hq2 pq hpq
      · have hstep : leaderStep ps acc m = acc := by simp [leaderStep, hl, hgt]
        rw [hstep]
        rcases ih acc with ⟨hfold, hbound⟩ |
          ⟨pre, w, post, pw, hsplit, hw, hfold, hacc, hpre, hpost⟩
        · left
          refine ⟨hfold, ?_⟩
          intro q hq pq hpq
          rcases List.mem_cons.mp hq with rfl | hq2
          · rw [hl] at hpq
            obtain rfl := Option.some_injective _ hpq
            omega
          · exact hbound q hq2 pq hpq
        · right
          refine ⟨m :: pre, w, post, pw, by rw [hsplit]; rfl, hw, hfold, hacc, ?_, hpost⟩
          intro q hq pq hpq
          rcases List.mem_cons.mp hq with rfl | hq2
          · rw [hl] at hpq
            obtain rfl := Option.some_injective _ hpq
            omega
          · exact hpre q hq2 pq hpq

/-- When the leader scan returns a winner, that winner is a member holding
the maximal kill count among members with a record, and every member
scanned before it has strictly fewer kills (ties go to the first
encountered). -/
theorem findLeader_spec (members : List Nat) (ps : List (Nat × Player)) (w : Nat)
    (bk : Int) (h : findLeader members ps = (some w, bk)) :
    (∃ pw, lookupA w ps = some pw ∧ pw.kills = bk) ∧ w ∈ members ∧
    (∀ q ∈ members, ∀ pq, lookupA q ps = some pq → pq.kills ≤ bk) ∧
    (∃ pre post, members = pre ++ w :: post ∧
      ∀ q ∈ pre, ∀ pq, lookupA q ps = some pq → pq.kills < bk) := by
  rcases leaderFold_spec ps members (none, -1) with ⟨hfold, _⟩ |
    ⟨pre, w2, post, pw, hsplit, hw, hfold, _, hpre, hpost⟩
  · rw [findLeader, hfold] at h
    simp at h
  · rw [findLeader, hfold] at h
    obtain ⟨hw2, hbk⟩ : w2 = w ∧ pw.kills = bk := by simpa using h
    subst hw2
    subst hbk
    refine ⟨⟨pw, hw, rfl⟩, ?_, ?_, pre, post, hsplit, hpre⟩
    · rw [hsplit]
      exact List.mem_append_right _ (List.mem_cons_self _ _)
    · intro q hq pq hpq
      rw [hsplit] at hq
      rcases List.mem_append.mp hq with hq1 | hq1
      · exact le_of_lt (hpre q hq1 pq hpq)
      · rcases List.mem_cons.mp hq1 with rfl | hq2
        · rw [hw] at hpq
          obtain rfl := Option.some_injective _ hpq
          exact le_refl _
        · exact hpost q hq2 pq hpq

/-- C7 (core): when the deadline fires on a still-active room, the round is
ended with the scan's winner — a member of maximal kill count, ties to the
first encountered. -/
theorem timer_end_core (g : Global) (rc : String) (r : Room) (w : Nat) (bk : Int)
    (hroom : lookupA rc g.rooms = some r)
    (hingame : r.state = RoomState.ingame)
    (hlead : findLeader r.players g.players = (some w, bk)) :
    (∃ r2, lookupA rc (timer_end g rc).1.rooms = some r2 ∧
      r2.state = RoomState.ended) ∧
    (∃ wname results, (timer_end g rc).2 =
      [Event.roundEnd rc (some w) wname results, Event.resetScheduled rc]) ∧
    w ∈ r.players ∧
    (∃ pw, lookupA w g.players = some pw ∧ pw.kills = bk) ∧
    (∀ q ∈ r.players, ∀ pq, lookupA q g.players = some pq → pq.kills ≤ bk) ∧
    (∃ pre post, r.players = pre ++ w :: post ∧
      ∀ q ∈ pre, ∀ pq, lookupA q g.players = some pq → pq.kills < bk) := by
  obtain ⟨hwp, hwmem, hmax, hfirst⟩ := findLeader_spec r.players g.players w bk hlead
  unfold timer_end
  simp only [hroom]
  rw [if_pos hingame, hlead]
  rw [end_round_ingame g rc (some w) r hroom hingame]
  refine ⟨⟨{ r with state := RoomState.ended }, ?_, rfl⟩, ⟨_, _, rfl⟩,
    hwmem, hwp, hmax, hfirst⟩
  rw [lookupA_updA_self, hroom, Option.map_some']

/-- C7 (guard): a deadline firing on a destroyed or no-longer-active room
changes nothing and emits nothing. -/
theorem timer_end_noop (g : Global) (rc : String)
    (h : ∀ r, lookupA rc g.rooms = some r → r.state ≠ RoomState.ingame) :
    timer_end g rc = (g, []) := by
  unfold timer_end
  cases hl : lookupA rc g.rooms with
  | none => rfl
  | some r => simp [h r hl]

/-! ## C5: session removal -/

/-- Removing the only member of a room destroys the room. -/
theorem remove_client_destroys (g : Global) (pid : Nat) (c : String) (room : Room)
    (hcode : lookupA pid g.pid_room = some c)
    (hroom : lookupA c g.rooms = some room)
    (hsole : room.players.filter (fun q => q ≠ pid) = []) :
    lookupA c (remove_client g pid).1.rooms = none := by
  unfold remove_client
  simp only [hcode, hroom, hsole]
  simp [lookupA_eraseA_self]

/-- Removing a member that leaves others behind keeps the room, with only
the member set shrunk — in particular `host_pid` is untouched even when the
removed session was the host. -/
theorem remove_client_keeps_host (g : Global) (pid : Nat) (c : String) (room : Room)
    (hcode : lookupA pid g.pid_room = some c)
    (hroom : lookupA c g.rooms = some room)
    (hnons : room.players.filter (fun q => q ≠ pid) ≠ []) :
    lookupA c (remove_client g pid).1.rooms
      = some { room with players := room.players.filter (fun q => q ≠ pid) } := by
  unfold remove_client
  simp only [hcode, hroom, if_neg hnons]
  rw [lookupA_updA_self, hroom, Option.map_some']

/-- The single-lobby variant repoints `host_id` at the first remaining
non-bot player when the host disconnects; any promoted host is a remaining
non-bot member. -/
theorem lobbyRemove_promotes (L : LobbyState) (pid : String)
    (hhost : L.host_id = some pid) :
    (lobbyRemove L pid).1.host_id
      = (((eraseA pid L.players).filter
          (fun kv => kv.2.bot = false)).map Prod.fst).head? ∧
    (∀ h, (lobbyRemove L pid).1.host_id = some h →
      ∃ q, (h, q) ∈ (lobbyRemove L pid).1.players ∧ q.bot = false) := by
  unfold lobbyRemove
  rw [if_pos hhost]
  refine ⟨rfl, ?_⟩
  intro h hh
  have hh2 : (((eraseA pid L.players).filter
      (fun kv => kv.2.bot = false)).map Prod.fst).head? = some h := hh
  have hmem : h ∈ ((eraseA pid L.players).filter
      (fun kv => kv.2.bot = false)).map Prod.fst := by
    have hmem0 : h ∈ (((eraseA pid L.players).filter
        (fun kv => kv.2.bot = false)).map Prod.fst).head? := by
      rw [hh2]
      rfl
    exact List.mem_of_mem_head? hmem0
  obtain ⟨kv, hkv, hfst⟩ := List.mem_map.mp hmem
  obtain ⟨hkv2, hbot⟩ := List.mem_filter.mp hkv
  refine ⟨kv.2, ?_, by simpa using hbot⟩
  have : kv = (h, kv.2) := by
    rw [← hfst]
  rw [← this]
  exact hkv2

/-! ## C6: room-code generation -/

/-- The retry loop never produces a typed capacity error: when every
proposed code is already live — in particular when the whole code space is
occupied — it simply never returns, for any number of observed iterations;
and any code it does return was not a live room's code. -/
theorem gen_code_exhaustion (proposals : Nat → String) (inRooms : String → Bool) :
    ((∀ s, inRooms s = true) → ∀ fuel, gen_code fuel proposals inRooms = none) ∧
    (∀ fuel c, gen_code fuel proposals inRooms = some c → inRooms c = false) := by
  have haux1 : (∀ s, inRooms s = true) →
      ∀ fuel i, gen_code_from proposals inRooms fuel i = none := by
    intro h fuel
    induction fuel with
    | zero => intro i; rfl
    | succ n ih =>
      intro i
      simp only [gen_code_from, h (proposals i), if_true]
      exact ih (i + 1)
  have haux2 : ∀ fuel i c,
      gen_code_from proposals inRooms fuel i = some c → inRooms c = false := by
    intro fuel
    induction fuel with
    | zero =>
      intro i c h
      cases h
    | succ n ih =>
      intro i c h
      by_cases hin : inRooms (proposals i) = true
      · simp only [gen_code_from, hin, if_true] at h
        exact ih _ _ h
      · have hin2 : inRooms (proposals i) = false := by
          cases hb : inRooms (proposals i)
          · rfl
          · exact absurd hb hin
        simp only [gen_code_from, hin2] at h
        simp at h
        rw [← h]
        exact hin2
  exact ⟨fun h fuel => haux1 h fuel 0, fun fuel c h => haux2 fuel 0 c h⟩

/-! ## C10: messages from a session with no player record -/

/-- A session that never created or joined a room (no player record, no
room-index entry): the guarded handlers leave the state untouched, but the
`state` and `reload` handlers dereference the absent record outside their
guard and raise, killing the read loop. -/
theorem handleMessage_no_record (now : Int) (g : Global) (pid : Nat)
    (hplayers : lookupA pid g.players = none)
    (hpidroom : lookupA pid g.pid_room = none) :
    (∀ x y a vx vy, handleMessage now g pid (.state x y a vx vy) = none) ∧
    handleMessage now g pid .reload = none ∧
    (∀ x y a gun, handleMessage now g pid (.shoot x y a gun)
        = some (g, [Event.shootEv pid none x y a gun])) ∧
    (∀ t isw d, handleMessage now g pid (.hit t isw d) = some (g, [])) ∧
    (∀ gid, handleMessage now g pid (.buyGun gid) = some (g, [])) ∧
    (∀ sid, handleMessage now g pid (.buySkin sid) = some (g, [])) ∧
    (∀ x y a, handleMessage now g pid (.swordSwing x y a)
        = some (g, [Event.swordDenied 0])) ∧
    (∀ text, handleMessage now g pid (.chat text)
        = some (g, [Event.chatMsg pid none "?" (text.take 80)])) ∧
    handleMessage now g pid .startGame = some (g, []) := by
  have hupd : ∀ f : Player → Player, updA pid f g.players = g.players :=
    fun f => updA_of_lookupA_none f hplayers
  refine ⟨?_, ?_, ?_, ?_, ?_, ?_, ?_, ?_, ?_⟩
  · intro x y a vx vy
    simp [handleMessage, hplayers]
  · simp [handleMessage, hplayers, lookupA_updA_self]
  · intro x y a gun
    simp [handleMessage, hpidroom, hupd]
  · intro t isw d
    simp only [handleMessage]
    rw [show hitHandler g pid t isw d = (g, []) from ?_]
    unfold hitHandler
    exact hitApply_rejects g pid t _ (Or.inl hplayers)
  · intro gid
    cases gid with
    | none => simp [handleMessage, hplayers]
    | some gid =>
      simp only [handleMessage]
      cases hs : lookupA gid SHOP <;> simp [hplayers, hs]
  · intro sid
    cases sid with
    | none => simp [handleMessage]
    | some sid =>
      simp only [handleMessage]
      cases hs : lookupA sid SHOP <;> simp [hplayers, hs]
  · intro x y a
    simp [handleMessage, hplayers]
  · intro text
    simp [handleMessage, hplayers, hpidroom]
  · simp [handleMessage, hpidroom]

/-! ## Sample states for concrete instantiation -/

def wAtk : Player := make_player 1 "H" "red" "phantom"

def wTgt : Player := { make_player 2 "V" "blue" "phantom" with shield := 1 }

def wTgt0 : Player := make_player 2 "V" "blue" "phantom"

def wRoom : Room :=
  { code := "ROOM01", host_pid := 1, state := RoomState.ingame,
    players := [1, 2], kill_goal := 10, round_timer := 0 }

def wG : Global :=
  { players := [(1, wAtk), (2, wTgt)], rooms := [("ROOM01", wRoom)],
    pid_room := [(1, "ROOM01"), (2, "ROOM01")], clients := [1, 2] }

def wG3 : Global :=
  { players := [(1, wAtk), (2, wTgt0)], rooms := [("ROOM01", wRoom)],
    pid_room := [(1, "ROOM01"), (2, "ROOM01")], clients := [1, 2] }

def emptyG : Global :=
  { players := [], rooms := [], pid_room := [], clients := [1] }

/-! ## Claims -/

/-- C1: for every hit on a valid live target in an active room, if the
target's shield is positive the entire damage goes to the shield only,
floored at zero, and the target's health is unchanged by that hit, however
much the damage exceeds the remaining shield. -/
theorem claim_C1 (g : Global) (pid tpid : Nat) (c : String) (room : Room)
    (atk tgt : Player) (isSword : Bool) (dmgRaw dmg : Int)
    (hdmg : (if isSword then SWORD_DMG else dmgRaw) = dmg)
    (hcode : lookupA pid g.pid_room = some c)
    (hroom : lookupA c g.rooms = some room)
    (hactive : room.state = RoomState.ingame)
    (hatk : lookupA pid g.players = some atk)
    (htgt : lookupA tpid g.players = some tgt)
    (halive : tgt.dead = false)
    (hshield : tgt.shield > 0) :
    ∃ tgt2,
      lookupA tpid (hitHandler g pid (some tpid) isSword dmgRaw).1.players
        = some tgt2 ∧
      tgt2.hp = tgt.hp ∧ tgt2.shield = max 0 (tgt.shield - dmg) := by
  unfold hitHandler
  rw [hdmg]
  exact hitApply_shield_absorbs g pid tpid c room atk tgt dmg hcode hroom hactive
    hatk htgt halive hshield

/-- Witness for C1: shield 1, health 3, hit for 3 — shield ends at 0 and
health is untouched. -/
theorem claim_C1_witness :
    ∃ tgt2, lookupA 2 (hitHandler wG 1 (some 2) false 3).1.players = some tgt2 ∧
      tgt2.hp = wTgt.hp ∧ tgt2.shield = max 0 (wTgt.shield - 3) :=
  claim_C1 wG 1 2 "ROOM01" wRoom wAtk wTgt false 3 3 rfl rfl rfl rfl rfl rfl rfl
    (by decide)

/-- C2: the frame round trip — for every payload that fits the 64-bit
length field, decoding the encoded frame returns exactly the payload, and
the encoder picks the inline length below 126 bytes, the 16-bit extension
below 65536 bytes, and the 64-bit extension otherwise (so in particular at
the boundary sizes 0, 1, 125, 126, 65535 and 65536). -/
theorem claim_C2 (payload : List Nat) (hlen : payload.length < 2 ^ 64) :
    ∃ frame, ws_send payload = some frame ∧ ws_recv [] frame = .text payload ∧
      (payload.length < 126 → frame = 0x81 :: payload.length :: payload) ∧
      (126 ≤ payload.length → payload.length < 65536 →
        frame = 0x81 :: 126 :: (encodeBE 2 payload.length ++ payload)) ∧
      (65536 ≤ payload.length →
        frame = 0x81 :: 127 :: (encodeBE 8 payload.length ++ payload)) :=
  ws_send_roundtrip payload hlen

/-- Witness for C2 at a concrete payload. -/
theorem claim_C2_witness :
    ([65, 66] : List Nat).length < 2 ^ 64 ∧
    ∃ frame, ws_send [65, 66] = some frame ∧ ws_recv [] frame = .text [65, 66] ∧
      (([65, 66] : List Nat).length < 126 →
        frame = 0x81 :: ([65, 66] : List Nat).length :: [65, 66]) ∧
      (126 ≤ ([65, 66] : List Nat).length → ([65, 66] : List Nat).length < 65536 →
        frame = 0x81 :: 126 :: (encodeBE 2 ([65, 66] : List Nat).length ++ [65, 66])) ∧
      (65536 ≤ ([65, 66] : List Nat).length →
        frame = 0x81 :: 127 :: (encodeBE 8 ([65, 66] : List Nat).length ++ [65, 66])) :=
  ⟨by norm_num, claim_C2 [65, 66] (by norm_num)⟩

/-- C3: a lethal hit marks the target dead with its deaths incremented,
credits the attacker kills +1 / score +100 / currency +5, broadcasts a
kill event, and schedules the delayed spawn-default respawn exactly when
the attacker's new kill count is below the room's kill goal; when the goal
is reached no respawn is scheduled and the round ends instead. -/
theorem claim_C3 (g : Global) (pid tpid : Nat) (c : String) (room : Room)
    (atk tgt : Player) (isSword : Bool) (dmgRaw dmg : Int)
    (hdmg : (if isSword then SWORD_DMG else dmgRaw) = dmg)
    (hcode : lookupA pid g.pid_room = some c)
    (hroom : lookupA c g.rooms = some room)
    (hactive : room.state = RoomState.ingame)
    (hatk : lookupA pid g.players = some atk)
    (htgt : lookupA tpid g.players = some tgt)
    (halive : tgt.dead = false)
    (hpt : pid ≠ tpid)
    (hshield : tgt.shield ≤ 0) (hlethal : tgt.hp ≤ dmg) :
    (∃ tgt2,
       lookupA tpid (hitHandler g pid (some tpid) isSword dmgRaw).1.players
         = some tgt2 ∧
       tgt2.dead = true ∧ tgt2.deaths = tgt.deaths + 1 ∧ tgt2.hp = 0) ∧
    (∃ atk2,
       lookupA pid (hitHandler g pid (some tpid) isSword dmgRaw).1.players
         = some atk2 ∧
       atk2.kills = atk.kills + 1 ∧ atk2.score = atk.score + 100 ∧
       atk2.coins = atk.coins + 5) ∧
    (∃ info, Event.kill info ∈ (hitHandler g pid (some tpid) isSword dmgRaw).2 ∧
       info.killer_pid = pid ∧ info.victim_pid = tpid ∧
       info.attacker_kills = atk.kills + 1) ∧
    ((Event.respawnScheduled tpid c ∈ (hitHandler g pid (some tpid) isSword dmgRaw).2)
       ↔ atk.kills + 1 < room.kill_goal) ∧
    (room.kill_goal ≤ atk.kills + 1 →
      (∃ r2, lookupA c (hitHandler g pid (some tpid) isSword dmgRaw).1.rooms
          = some r2 ∧ r2.state = RoomState.ended) ∧
      ∃ wname results, Event.roundEnd c (some pid) wname results
        ∈ (hitHandler g pid (some tpid) isSword dmgRaw).2) ∧
    (∀ g2 p2, lookupA tpid g2.players = some p2 →
      ∃ p3, lookupA tpid (do_respawn g2 tpid c).1.players = some p3 ∧
        p3.dead = false ∧ p3.hp = p2.maxHp ∧ p3.gun = "pistol" ∧ p3.ammo = 12 ∧
        p3.shield = 0 ∧ p3.x = (if p2.team = "red" then 100 else 1300) ∧
        p3.y = 400) := by
  unfold hitHandler
  rw [hdmg]
  exact hitApply_lethal g pid tpid c room atk tgt dmg hcode hroom hactive hatk
    htgt halive hpt hshield hlethal

/-- Witness for C3: shield 0, health 3, hit for 3, kill goal 10 not yet
reached. -/
theorem claim_C3_witness :
    (∃ tgt2, lookupA 2 (hitHandler wG3 1 (some 2) false 3).1.players = some tgt2 ∧
       tgt2.dead = true ∧ tgt2.deaths = wTgt0.deaths + 1 ∧ tgt2.hp = 0) ∧
    (∃ atk2, lookupA 1 (hitHandler wG3 1 (some 2) false 3).1.players = some atk2 ∧
       atk2.kills = wAtk.kills + 1 ∧ atk2.score = wAtk.score + 100 ∧
       atk2.coins = wAtk.coins + 5) ∧
    (∃ info, Event.kill info ∈ (hitHandler wG3 1 (some 2) false 3).2 ∧
       info.killer_pid = 1 ∧ info.victim_pid = 2 ∧
       info.attacker_kills = wAtk.kills + 1) ∧
    ((Event.respawnScheduled 2 "ROOM01" ∈ (hitHandler wG3 1 (some 2) false 3).2)
       ↔ wAtk.kills + 1 < wRoom.kill_goal) ∧
    (wRoom.kill_goal ≤ wAtk.kills + 1 →
      (∃ r2, lookupA "ROOM01" (hitHandler wG3 1 (some 2) false 3).1.rooms
          = some r2 ∧ r2.state = RoomState.ended) ∧
      ∃ wname results, Event.roundEnd "ROOM01" (some 1) wname results
        ∈ (hitHandler wG3 1 (some 2) false 3).2) ∧
    (∀ g2 p2, lookupA 2 g2.players = some p2 →
      ∃ p3, lookupA 2 (do_respawn g2 2 "ROOM01").1.players = some p3 ∧
        p3.dead = false ∧ p3.hp = p2.maxHp ∧ p3.gun = "pistol" ∧ p3.ammo = 12 ∧
        p3.shield = 0 ∧ p3.x = (if p2.team = "red" then 100 else 1300) ∧
        p3.y = 400) :=
  claim_C3 wG3 1 2 "ROOM01" wRoom wAtk wTgt0 false 3 3 rfl rfl rfl rfl rfl rfl
    rfl (by decide) (by decide) (by decide)

/-- C4: for every player still in the room when the round ends and again at
the later reset to lobby, the reset restores the currency, owned-cosmetics
and equipped-cosmetics values saved at round end, while kills, deaths,
score, health, position, weapon, ammunition, shield and the dead flag go
back to spawn defaults. -/
theorem claim_C4 (g : Global) (rc : String) (room : Room) (w : Option Nat)
    (pid : Nat) (p : Player)
    (hroom : lookupA rc g.rooms = some room)
    (hingame : room.state = RoomState.ingame)
    (hmem : pid ∈ room.players)
    (hp : lookupA pid g.players = some p) :
    ∃ p2, lookupA pid
        (reset_room (end_round g rc w).1 rc (end_round g rc w).2.1).1.players
        = some p2 ∧
      p2.coins = p.coins ∧ p2.owned_skins = p.owned_skins ∧
      p2.active_skins = p.active_skins ∧
      p2.kills = 0 ∧ p2.deaths = 0 ∧ p2.score = 0 ∧
      p2.hp = 3 ∧ p2.dead = false ∧
      p2.x = (if p.team = "red" then 100 else 1300) ∧ p2.y = 400 ∧
      p2.gun = "pistol" ∧ p2.ammo = 12 ∧ p2.shield = 0 :=
  round_reset_core g rc room w pid p hroom hingame hmem hp

/-- Witness for C4 at a concrete two-member ingame room. -/
theorem claim_C4_witness :
    ∃ p2, lookupA 1
        (reset_room (end_round wG3 "ROOM01" (some 1)).1 "ROOM01"
          (end_round wG3 "ROOM01" (some 1)).2.1).1.players
        = some p2 ∧
      p2.coins = wAtk.coins ∧ p2.owned_skins = wAtk.owned_skins ∧
      p2.active_skins = wAtk.active_skins ∧
      p2.kills = 0 ∧ p2.deaths = 0 ∧ p2.score = 0 ∧
      p2.hp = 3 ∧ p2.dead = false ∧
      p2.x = (if wAtk.team = "red" then 100 else 1300) ∧ p2.y = 400 ∧
      p2.gun = "pistol" ∧ p2.ammo = 12 ∧ p2.shield = 0 :=
  claim_C4 wG3 "ROOM01" wRoom (some 1) 1 wAtk rfl rfl (by decide) rfl

def hostRoom : Room :=
  { code := "ROOM01", host_pid := 1, state := RoomState.lobby,
    players := [1, 2], kill_goal := 10, round_timer := 0 }

def hostG : Global :=
  { players := [(1, wAtk), (2, wTgt0)], rooms := [("ROOM01", hostRoom)],
    pid_room := [(1, "ROOM01"), (2, "ROOM01")], clients := [1, 2] }

def soloRoom : Room :=
  { code := "SOLO01", host_pid := 1, state := RoomState.lobby,
    players := [1], kill_goal := 10, round_timer := 0 }

def soloG : Global :=
  { players := [(1, wAtk)], rooms := [("SOLO01", soloRoom)],
    pid_room := [(1, "SOLO01")], clients := [1] }

def wLobby : LobbyState :=
  { players := [("aa", { name := "A", bot := false }),
                ("bb", { name := "B", bot := false })],
    host_id := some "aa" }

/-- Counterexample for C5 as stated: removing host 1 from the two-member
room leaves the room alive with `host_pid` still 1 — the departed session —
and members `[2]`; no remaining member became the host. -/
theorem claim_C5_counterexample :
    (lookupA "ROOM01" (remove_client hostG 1).1.rooms).map Room.host_pid
      = some 1 ∧
    (lookupA "ROOM01" (remove_client hostG 1).1.rooms).map Room.players
      = some [2] ∧
    ¬ (1 ∈ ([2] : List Nat)) := by
  exact ⟨rfl, rfl, by decide⟩

/-- C5 (amended): removing the sole member of a room destroys the room;
removing the host when other members remain keeps the room with only its
member set shrunk, so `host_pid` still names the removed session (no
promotion in the room server); host promotion — to the first remaining
non-bot player — exists only in the single-lobby variant's disconnect
path, which never destroys the lobby. -/
theorem claim_C5 :
    (∀ (g : Global) (pid : Nat) (c : String) (room : Room),
      lookupA pid g.pid_room = some c → lookupA c g.rooms = some room →
      room.players.filter (fun q => q ≠ pid) = [] →
      lookupA c (remove_client g pid).1.rooms = none) ∧
    (∀ (g : Global) (pid : Nat) (c : String) (room : Room),
      lookupA pid g.pid_room = some c → lookupA c g.rooms = some room →
      room.players.filter (fun q => q ≠ pid) ≠ [] →
      lookupA c (remove_client g pid).1.rooms
        = some { room with players := room.players.filter (fun q => q ≠ pid) }) ∧
    (∀ (L : LobbyState) (pid : String), L.host_id = some pid →
      (lobbyRemove L pid).1.host_id
        = (((eraseA pid L.players).filter
            (fun kv => kv.2.bot = false)).map Prod.fst).head? ∧
      ∀ h, (lobbyRemove L pid).1.host_id = some h →
        ∃ q, (h, q) ∈ (lobbyRemove L pid).1.players ∧ q.bot = false) :=
  ⟨remove_client_destroys, remove_client_keeps_host, lobbyRemove_promotes⟩

/-- Witness for C5 (amended) at concrete rooms and lobby. -/
theorem claim_C5_witness :
    lookupA "SOLO01" (remove_client soloG 1).1.rooms = none ∧
    lookupA "ROOM01" (remove_client hostG 1).1.rooms
      = some { hostRoom with players := hostRoom.players.filter (fun q => q ≠ 1) } ∧
    (lobbyRemove wLobby "aa").1.host_id = some "bb" := by
  refine ⟨claim_C5.1 soloG 1 "SOLO01" soloRoom rfl rfl (by decide),
    claim_C5.2.1 hostG 1 "ROOM01" hostRoom rfl rfl (by decide), ?_⟩
  exact (claim_C5.2.2 wLobby "aa" rfl).1

/-- C6: the room-code generator is an unbounded retry loop with no error
path: if every proposed code is already a live room — in particular when
the code space is exhausted — it never returns and never produces a typed
capacity error, for any number of observed iterations; when it does return,
the code is distinct from every live room's code. -/
theorem claim_C6 (proposals : Nat → String) (inRooms : String → Bool) :
    ((∀ s, inRooms s = true) → ∀ fuel, gen_code fuel proposals inRooms = none) ∧
    (∀ fuel c, gen_code fuel proposals inRooms = some c → inRooms c = false) :=
  gen_code_exhaustion proposals inRooms

/-- Witness for C6: with every code live the loop is still running after
five iterations; a returned code tests as not live. -/
theorem claim_C6_witness :
    gen_code 5 (fun _ => "AAAAAA") (fun _ => true) = none ∧
    (fun _ : String => false) "BBBBBB" = false :=
  ⟨(claim_C6 (fun _ => "AAAAAA") (fun _ => true)).1 (fun _ => rfl) 5,
   (claim_C6 (fun _ => "BBBBBB") (fun _ => false)).2 1 "BBBBBB" rfl⟩

/-- C7: a deadline elapsing on a still-active room ends the round with a
winner that is a member of maximal kill count, ties resolved to the member
first encountered during iteration; when the room is gone or no longer
active the watcher changes nothing. -/
theorem claim_C7 (g : Global) (rc : String) (r : Room) (w : Nat) (bk : Int)
    (hroom : lookupA rc g.rooms = some r)
    (hingame : r.state = RoomState.ingame)
    (hlead : findLeader r.players g.players = (some w, bk)) :
    ((∃ r2, lookupA rc (timer_end g rc).1.rooms = some r2 ∧
        r2.state = RoomState.ended) ∧
     (∃ wname results, (timer_end g rc).2 =
        [Event.roundEnd rc (some w) wname results, Event.resetScheduled rc]) ∧
     w ∈ r.players ∧
     (∃ pw, lookupA w g.players = some pw ∧ pw.kills = bk) ∧
     (∀ q ∈ r.players, ∀ pq, lookupA q g.players = some pq → pq.kills ≤ bk) ∧
     (∃ pre post, r.players = pre ++ w :: post ∧
        ∀ q ∈ pre, ∀ pq, lookupA q g.players = some pq → pq.kills < bk)) ∧
    (∀ (g2 : Global) (rc2 : String),
      (∀ r2, lookupA rc2 g2.rooms = some r2 → r2.state ≠ RoomState.ingame) →
      timer_end g2 rc2 = (g2, [])) :=
  ⟨timer_end_core g rc r w bk hroom hingame hlead,
   fun g2 rc2 h => timer_end_noop g2 rc2 h⟩

/-- Witness for C7 at a concrete active room (both members at 0 kills, so
the first-encountered member 1 wins the tie). -/
theorem claim_C7_witness :
    ((∃ r2, lookupA "ROOM01" (timer_end wG3 "ROOM01").1.rooms = some r2 ∧
        r2.state = RoomState.ended) ∧
     (∃ wname results, (timer_end wG3 "ROOM01").2 =
        [Event.roundEnd "ROOM01" (some 1) wname results,
         Event.resetScheduled "ROOM01"]) ∧
     1 ∈ wRoom.players ∧
     (∃ pw, lookupA 1 wG3.players = some pw ∧ pw.kills = 0) ∧
     (∀ q ∈ wRoom.players, ∀ pq, lookupA q wG3.players = some pq →
        pq.kills ≤ 0) ∧
     (∃ pre post, wRoom.players = pre ++ 1 :: post ∧
        ∀ q ∈ pre, ∀ pq, lookupA q wG3.players = some pq → pq.kills < 0)) ∧
    (∀ (g2 : Global) (rc2 : String),
      (∀ r2, lookupA rc2 g2.rooms = some r2 → r2.state ≠ RoomState.ingame) →
      timer_end g2 rc2 = (g2, [])) :=
  claim_C7 wG3 "ROOM01" wRoom 1 0 rfl rfl (by decide)

/-- C8: a hit whose attacker or target is unknown, whose target is already
dead, or whose room is absent or not in the active phase, leaves the whole
state unchanged and broadcasts nothing — in particular no kill and no
damage event. -/
theorem claim_C8 (g : Global) (pid : Nat) (target_pid : Option Nat)
    (isSword : Bool) (dmg : Int)
    (hfail : lookupA pid g.players = none ∨
      target_pid = none ∨
      (∃ t, target_pid = some t ∧ lookupA t g.players = none) ∨
      (∃ t tgt, target_pid = some t ∧ lookupA t g.players = some tgt ∧
        tgt.dead = true) ∨
      (lookupA pid g.pid_room).bind (fun c => lookupA c g.rooms) = none ∨
      (∃ r, (lookupA pid g.pid_room).bind (fun c => lookupA c g.rooms) = some r ∧
        r.state ≠ RoomState.ingame)) :
    hitHandler g pid target_pid isSword dmg = (g, []) := by
  unfold hitHandler
  exact hitApply_rejects g pid target_pid _ hfail

/-- Witness for C8: a hit from an unknown attacker in an empty server. -/
theorem claim_C8_witness :
    hitHandler { players := [], rooms := [], pid_room := [], clients := [] }
      1 (some 2) false 3
      = ({ players := [], rooms := [], pid_room := [], clients := [] }, []) :=
  claim_C8 { players := [], rooms := [], pid_room := [], clients := [] }
    1 (some 2) false 3 (Or.inl rfl)

/-- Counterexample for C9 as stated: the same complete six-byte frame
(16-bit extended length, two payload bytes) decodes under full reads, but
when the extended length field arrives split across two reads the decoder
reports end-of-stream instead of retrying — the single `recv(2)` for the
extension is trusted as-is and the short result makes the length unpack
raise. -/
theorem claim_C9_counterexample :
    ws_recv [1, 0] [0x81, 126, 0, 2, 65, 66] = RecvResult.closed ∧
    ws_recv [] [0x81, 126, 0, 2, 65, 66] = RecvResult.text [65, 66] := by
  constructor <;> simp [ws_recv, readExact, recvChunk, decodeBE]

/-- C9 (amended): the decoder retries partial reads only for the 2-byte
header and the payload — those reads return exactly the requested bytes or
report end-of-stream, under every chunking; the 16-bit/64-bit extended
length fields and the masking key are each a single read used as-is, so a
short read there is treated as end-of-stream rather than retried. -/
theorem claim_C9 :
    (∀ (k : Nat) (sched s : List Nat),
      (k ≤ s.length ∧ ∃ sc, readExact k sched s = some (s.take k, sc, s.drop k)) ∨
      (s.length < k ∧ readExact k sched s = none)) ∧
    ws_recv [1, 0] [0x81, 126, 0, 2, 65, 66] = RecvResult.closed ∧
    ws_recv [] [0x81, 126, 0, 2, 65, 66] = RecvResult.text [65, 66] := by
  refine ⟨?_, ?_, ?_⟩
  · intro k sched s
    rcases Nat.lt_or_ge s.length k with h | h
    · exact Or.inr ⟨h, (readExact_spec k sched s).2 h⟩
    · exact Or.inl ⟨h, (readExact_spec k sched s).1 h⟩
  · simp [ws_recv, readExact, recvChunk, decodeBE]
  · simp [ws_recv, readExact, recvChunk, decodeBE]

/-- Counterexample for C10 as stated: a `state` or `reload` message from a
connected session with no player record raises (TypeError on the absent
record) instead of being ignored, killing that connection's read loop. -/
theorem claim_C10_counterexample :
    handleMessage 0 emptyG 1 (Msg.state none none none none none) = none ∧
    handleMessage 0 emptyG 1 Msg.reload = none := by
  exact ⟨rfl, rfl⟩

/-- C10 (amended): from a session with no player record and no room-index
entry, the hit, shoot, buyGun, buySkin, swordSwing, chat and startGame
handlers raise no exception and leave players, rooms and the room index
unchanged; the state and reload handlers instead dereference the absent
record outside their guard and raise, terminating the read loop (the
room-creating types createRoom / joinRoom / join create the record and are
out of this claim's scope). -/
theorem claim_C10 (now : Int) (g : Global) (pid : Nat)
    (hplayers : lookupA pid g.players = none)
    (hpidroom : lookupA pid g.pid_room = none) :
    (∀ x y a vx vy, handleMessage now g pid (.state x y a vx vy) = none) ∧
    handleMessage now g pid .reload = none ∧
    (∀ x y a gun, handleMessage now g pid (.shoot x y a gun)
        = some (g, [Event.shootEv pid none x y a gun])) ∧
    (∀ t isw d, handleMessage now g pid (.hit t isw d) = some (g, [])) ∧
    (∀ gid, handleMessage now g pid (.buyGun gid) = some (g, [])) ∧
    (∀ sid, handleMessage now g pid (.buySkin sid) = some (g, [])) ∧
    (∀ x y a, handleMessage now g pid (.swordSwing x y a)
        = some (g, [Event.swordDenied 0])) ∧
    (∀ text, handleMessage now g pid (.chat text)
        = some (g, [Event.chatMsg pid none "?" (text.take 80)])) ∧
    handleMessage now g pid .startGame = some (g, []) :=
  handleMessage_no_record now g pid hplayers hpidroom

/-- Witness for C10 (amended) on a concrete empty server with one
connected session. -/
theorem claim_C10_witness :
    (∀ x y a vx vy, handleMessage 0 emptyG 1 (.state x y a vx vy) = none) ∧
    handleMessage 0 emptyG 1 .reload = none ∧
    (∀ x y a gun, handleMessage 0 emptyG 1 (.shoot x y a gun)
        = some (emptyG, [Event.shootEv 1 none x y a gun])) ∧
    (∀ t isw d, handleMessage 0 emptyG 1 (.hit t isw d) = some (emptyG, [])) ∧
    (∀ gid, handleMessage 0 emptyG 1 (.buyGun gid) = some (emptyG, [])) ∧
    (∀ sid, handleMessage 0 emptyG 1 (.buySkin sid) = some (emptyG, [])) ∧
    (∀ x y a, handleMessage 0 emptyG 1 (.swordSwing x y a)
        = some (emptyG, [Event.swordDenied 0])) ∧
    (∀ text, handleMessage 0 emptyG 1 (.chat text)
        = some (emptyG, [Event.chatMsg 1 none "?" (text.take 80)])) ∧
    handleMessage 0 emptyG 1 .startGame = some (emptyG, []) :=
  claim_C10 0 emptyG 1 rfl rfl

end Rivals
